import Mathlib

/-!
Verification of the glittr-core indexer/updater against its specification.

The Rust sources under `src/` are embedded shallowly: pure structure by
structure, loops as folds or structural recursion, the rocksdb key-value
store as typed association lists keyed by the same keys the code uses,
async sequencing as plain state passing.  External collaborators (serde
JSON codec, secp256k1 Schnorr verification, bitcoin address decoding)
enter as explicit parameters or abstract fields, matching the spec's
"out of scope" boundary.  Definitions whose source file is absent from
`src/` are marked `Modelled from the spec:` in their doc comment.
-/

namespace Glittr

/-! ## U128 saturating arithmetic (spec section 3: all arithmetic saturates) -/

/-- Upper bound of the `U128` domain. -/
def U128MAX : Nat := 2 ^ 128 - 1

/-- `u128::saturating_add`. -/
def satAdd (a b : Nat) : Nat := min (a + b) U128MAX

/-- `u128::saturating_mul`. -/
def satMul (a b : Nat) : Nat := min (a * b) U128MAX

theorem satAdd_zero (a : Nat) (h : a ≤ U128MAX) : satAdd a 0 = a := by
  simp [satAdd, h]

theorem satAdd_exact (a b : Nat) (h : a + b ≤ U128MAX) : satAdd a b = a + b := by
  simp [satAdd, h]

theorem satMul_exact (a b : Nat) (h : a * b ≤ U128MAX) : satMul a b = a * b := by
  simp [satMul, h]

/-! ## Identifiers (src/src/updater.rs, src/src/transaction/message.rs)

`BlockTx` keys every message-bearing transaction; the Rust code keys its
maps by the string form `"block:tx"`, an injective image of the pair, so
the embedding keys directly by the pair. -/

structure BlockTx where
  block : Nat
  tx : Nat
deriving DecidableEq, Repr, Inhabited

structure Outpoint where
  txid : String
  vout : Nat
deriving DecidableEq, Repr, Inhabited

/-! ## Association-list maps

The Rust `HashMap`s are embedded as association lists whose mutating
operations keep keys unique by construction. -/

def alGet {κ α : Type} [DecidableEq κ] : List (κ × α) → κ → Option α
  | [], _ => none
  | p :: rest, k => if p.1 = k then some p.2 else alGet rest k

def alErase {κ α : Type} [DecidableEq κ] : List (κ × α) → κ → List (κ × α)
  | [], _ => []
  | p :: rest, k => if p.1 = k then alErase rest k else p :: alErase rest k

def alSet {κ α : Type} [DecidableEq κ] (l : List (κ × α)) (k : κ) (v : α) : List (κ × α) :=
  (k, v) :: alErase l k

theorem alGet_alErase {κ α : Type} [DecidableEq κ] (l : List (κ × α)) (k k' : κ) :
    alGet (alErase l k) k' = if k' = k then none else alGet l k' := by
  induction l with
  | nil => simp [alGet, alErase]
  | cons p rest ih =>
    simp only [alErase]
    by_cases hp : p.1 = k
    · simp only [hp, if_true, ih]
      by_cases hk : k' = k
      · simp [hk]
      · simp only [hk, if_false, alGet]
        have : ¬ p.1 = k' := by rw [hp]; exact fun h => hk h.symm
        simp [this]
    · simp only [hp, if_false, alGet]
      by_cases hq : p.1 = k'
      · have hk : ¬ k' = k := by rw [← hq]; exact hp
        simp [hq, hk]
      · simp [hq, ih]

theorem alGet_alSet_same {κ α : Type} [DecidableEq κ] (l : List (κ × α)) (k : κ) (v : α) :
    alGet (alSet l k v) k = some v := by
  simp [alSet, alGet]

theorem alGet_alSet_other {κ α : Type} [DecidableEq κ] (l : List (κ × α)) (k k' : κ) (v : α)
    (h : k' ≠ k) : alGet (alSet l k v) k' = alGet l k' := by
  have hk : ¬ k = k' := fun hh => h hh.symm
  simp [alSet, alGet, hk, alGet_alErase, h]

/-! ## Flaws (spec section 7; the file src/src/flaw.rs is not under src/, the
constructors are those named by the spec and used by the sources).
`InvalidInstruction` carries the offending opcode (the source stores its
string rendering). -/

inductive Flaw where
  | NonGlittrMessage
  | InvalidScript
  | InvalidInstruction (code : Nat)
  | FailedDeserialization
  | MessageInvalid
  | ContractNotFound
  | TickerAlreadyExists
  | ReferencingFlawedBlockTx
  | LiveTimeNotReached
  | LiveTimeExpired
  | SupplyCapExceeded
  | PointerOverflow
  | InvalidPointer
  | PointerKeyNotFound
  | OutputOverflow (indices : List Nat)
  | InsufficientInputAmount
  | InsufficientOutputAmount
  | OracleMintFailed
  | OracleMintStale
  | OutValueNotFound
  | PoolNotFound
  | CollateralAccountNotFound
  | LtvMustBeUpdated
  | OutstandingMustBeUpdated
  | BurnValueIncorrect
  | SpecContractViolation
  | SpecNotOwned
  | ContractNotMatch
  | InvalidContractType
  | NotImplemented
deriving DecidableEq, Repr

/-! ## Scripts and transactions

A script is embedded at the level the code consumes it: the sequence of
results the `instructions()` iterator yields — a decoded instruction or a
decode error (`ScriptItem.err`).  `TxOut.addr` models the external
`Address::from_script` decode used by the purchase transfer scheme. -/

inductive Instr where
  | op (code : Nat)
  | push (bytes : List Nat)
deriving DecidableEq, Repr

inductive ScriptItem where
  | ok (i : Instr)
  | err
deriving DecidableEq, Repr

/-- Opcode byte of `OP_RETURN`. -/
def OP_RETURN : Nat := 106

structure TxOut where
  script_pubkey : List ScriptItem
  value : Nat
  addr : Option String
deriving DecidableEq, Repr

instance : Inhabited TxOut := ⟨⟨[], 0, none⟩⟩

structure TxIn where
  previous_output : Outpoint
deriving DecidableEq, Repr

/-- `txid` stands for `compute_txid()` (an external hash of the serialized
transaction, injective on distinct transactions). -/
structure Transaction where
  txid : String
  input : List TxIn
  output : List TxOut
deriving DecidableEq, Repr

/-! ## Message model (src/src/transaction/message.rs) -/

structure OracleMessage where
  input_outpoint : Option Outpoint
  min_in_value : Option Nat
  out_value : Option Nat
  asset_id : Option String
  ratio : Option (Nat × Nat)
  ltv : Option (Nat × Nat)
  outstanding : Option Nat
  block_height : Nat
deriving DecidableEq, Repr

structure OracleMessageSigned where
  signature : List Nat
  message : OracleMessage
deriving DecidableEq, Repr

structure AssertValues where
  input_values : Option (List Nat)
  total_collateralized : Option (List Nat)
  min_out_value : Option Nat
deriving DecidableEq, Repr

structure CommitmentMessage where
  public_key : List Nat
  args : List Nat
deriving DecidableEq, Repr

/-- `MintOption` of the revision in src/src/updater/mint.rs: the pointer is
mandatory there (`mint_option.pointer` is used directly as a vout). -/
structure MintOption where
  pointer : Nat
  oracle_message : Option OracleMessageSigned
deriving DecidableEq, Repr

structure MintBurnOption where
  pointer : Option Nat
  oracle_message : Option OracleMessageSigned
  pointer_to_key : Option Nat
  assert_values : Option AssertValues
  commitment_message : Option CommitmentMessage
deriving DecidableEq, Repr

structure SwapOption where
  pointer : Nat
  assert_values : Option AssertValues
deriving DecidableEq, Repr

structure OpenAccountOption where
  pointer_to_key : Nat
  share_amount : Nat
deriving DecidableEq, Repr

structure CloseAccountOption where
  pointer : Nat
deriving DecidableEq, Repr

structure UpdateNftOption where
  whitelist_address_bloom_filter : Option (List Nat)
  trusted_marketplace_fee_addresses : Option (List String)
  access_key_pointer : Option Nat
deriving DecidableEq, Repr

inductive InputAsset where
  | rawBtc
  | glittrAsset (contract : BlockTx)
  | metaprotocol
deriving DecidableEq, Repr

inductive TransferScheme where
  | burn
  | purchase (bitcoin_address : String)
deriving DecidableEq, Repr

/-- Oracle setting of a contract.  Modelled from the spec: the defining
file is not under src/; the fields are those the sources read
(`setting.asset_id`) plus the configured public key and staleness window
of spec section 4.4.3. -/
structure OracleSetting where
  pubkey : List Nat
  asset_id : Option String
  block_height_slippage : Nat
deriving DecidableEq, Repr

inductive TransferRatioType where
  | fixed (ratio : Nat × Nat)
  | oracle (pubkey : List Nat) (setting : OracleSetting)
deriving DecidableEq, Repr

/-- Purchase/burn/swap mechanism as read by src/src/updater/mint.rs. -/
structure AssetContractPurchaseBurnSwap where
  input_asset : InputAsset
  transfer_scheme : TransferScheme
  transfer_ratio_type : TransferRatioType
deriving DecidableEq, Repr

/-- Free-mint parameters as read by `mint_free_mint` in
src/src/updater/mint.rs (`live_time`, `supply_cap`, `amount_per_mint`).
`end_time` is modelled from the spec (MOA attribute `end_time?`): the
defining file is not under src/ and no code in src/ reads it. -/
structure AssetContractFreeMint where
  supply_cap : Option Nat
  amount_per_mint : Nat
  live_time : Nat
  end_time : Option Nat
deriving DecidableEq, Repr

/-- MOA mint mechanisms (shape of the message.rs revision, payloads of the
mint.rs revision; `preallocated` is dispatched to `NotImplemented` and its
payload is irrelevant). -/
structure MOAMintMechanisms where
  free_mint : Option AssetContractFreeMint
  preallocated : Option Unit
  purchase : Option AssetContractPurchaseBurnSwap
deriving DecidableEq, Repr

/-- Modelled from the spec: mint_only_asset.rs is not under src/; fields
follow spec section 3 (MOA) and the test in
src/src/transaction/message.rs. -/
structure MintOnlyAssetContract where
  ticker : Option String
  supply_cap : Option Nat
  divisibility : Nat
  live_time : Nat
  end_time : Option Nat
  mint_mechanism : MOAMintMechanisms
deriving DecidableEq, Repr

/-! ## Mint-burn (MBA) contract model

mint_burn_asset.rs is not under src/.  The shapes below are modelled from
the spec (section 3, MBA row) restricted to the fields the code in
src/src/updater/burn.rs reads: `live_time`, `end_time`,
`mint_mechanism.collateralized` (with `input_assets` and
`mint_structure`), and `burn_mechanism.return_collateral` (with
`oracle_setting`). -/

inductive RatioModel where
  | constantProduct
  | constantSum
deriving DecidableEq, Repr

structure ProportionalType where
  ratio_model : RatioModel
deriving DecidableEq, Repr

/-- Modelled from the spec: ratio mint/burn is oracle-gated; only the
oracle setting is consumed by the modelled helper. -/
structure RatioType where
  oracle_setting : OracleSetting
deriving DecidableEq, Repr

/-- Modelled from the spec: collateral-account mint structure; its payload
is not consumed by the account branch in src/src/updater/burn.rs. -/
structure AccountType where
  max_ltv : Option (Nat × Nat)
deriving DecidableEq, Repr

inductive MintStructure where
  | ratio (rt : RatioType)
  | proportional (pt : ProportionalType)
  | account (at_ : AccountType)
deriving DecidableEq, Repr

structure Collateralized where
  input_assets : List InputAsset
  mint_structure : MintStructure
deriving DecidableEq, Repr

structure MBAMintMechanisms where
  collateralized : Option Collateralized
deriving DecidableEq, Repr

structure ReturnCollateral where
  oracle_setting : Option OracleSetting
deriving DecidableEq, Repr

structure BurnMechanisms where
  return_collateral : Option ReturnCollateral
deriving DecidableEq, Repr

structure MintBurnAssetContract where
  ticker : Option String
  supply_cap : Option Nat
  divisibility : Nat
  live_time : Nat
  end_time : Option Nat
  mint_mechanism : MBAMintMechanisms
  burn_mechanism : BurnMechanisms
deriving DecidableEq, Repr

/-- Modelled from the spec: spec.rs and the spec-contract type are not
under src/; only the `block_tx` discriminator (create vs update) is
consumed by src/src/updater.rs. -/
structure SpecContract where
  block_tx : Option BlockTx
deriving DecidableEq, Repr

/-- Modelled from the spec: nft.rs is not under src/. -/
structure NftAssetContract where
  asset : List Nat
deriving DecidableEq, Repr

inductive ContractType where
  | moa (m : MintOnlyAssetContract)
  | mba (m : MintBurnAssetContract)
  | spec (s : SpecContract)
  | nft (n : NftAssetContract)
deriving DecidableEq, Repr

/-- Call types of src/src/transaction/message.rs.  The mint payload is the
`MintOption` of the mint.rs revision (mandatory pointer), which is what
`Updater::mint` consumes; burn carries `MintBurnOption` as consumed by
src/src/updater/burn.rs. -/
inductive CallType where
  | mint (o : MintOption)
  | burn (o : MintBurnOption)
  | swap (o : SwapOption)
  | openAccount (o : OpenAccountOption)
  | closeAccount (o : CloseAccountOption)
  | updateNft (o : UpdateNftOption)
deriving DecidableEq, Repr

structure TxTypeTransfer where
  asset : BlockTx
  output : Nat
  amount : Nat
deriving DecidableEq, Repr

structure Transfer where
  transfers : List TxTypeTransfer
deriving DecidableEq, Repr

structure ContractCreation where
  contract_type : ContractType
  spec : Option BlockTx
deriving DecidableEq, Repr

structure ContractCall where
  contract : Option BlockTx
  call_type : CallType
deriving DecidableEq, Repr

structure OpReturnMessage where
  transfer : Option Transfer
  contract_creation : Option ContractCreation
  contract_call : Option ContractCall
deriving DecidableEq, Repr

/-! ## Stored data (src/src/updater.rs, src/src/updater/mint.rs)

`AssetContractData` follows the enum consumed by src/src/updater/mint.rs
(`AssetContractData::FreeMint`); its `minted` field counts successful
mints.  The `burned` counter is modelled from the spec
(`burned_supply`): the code updating it (`validate_and_update_supply_cap`)
is not under src/. -/

structure AssetContractDataFreeMint where
  minted : Nat
  burned : Nat
deriving DecidableEq, Repr

instance : Inhabited AssetContractDataFreeMint := ⟨⟨0, 0⟩⟩

inductive AssetContractData where
  | freeMint (d : AssetContractDataFreeMint)
deriving DecidableEq, Repr

instance : Inhabited AssetContractData := ⟨.freeMint default⟩

structure AssetList where
  list : List (BlockTx × Nat)
deriving DecidableEq, Repr

instance : Inhabited AssetList := ⟨⟨[]⟩⟩

structure SpecContractOwned where
  specs : List BlockTx
deriving DecidableEq, Repr

instance : Inhabited SpecContractOwned := ⟨⟨[]⟩⟩

structure CollateralAccount where
  total_collateral_amount : Nat
  share_amount : Nat
  ltv : Nat × Nat
  amount_outstanding : Nat
deriving DecidableEq, Repr

structure CollateralAccounts where
  collateral_accounts : List (BlockTx × CollateralAccount)
deriving DecidableEq, Repr

instance : Inhabited CollateralAccounts := ⟨⟨[]⟩⟩

structure CollateralizedAssetData where
  amounts : List (BlockTx × Nat)
  total_supply : Nat
deriving DecidableEq, Repr

structure MessageDataOutcome where
  message : Option OpReturnMessage
  flaw : Option Flaw
deriving DecidableEq, Repr

/-! ## Store and updater state

The rocksdb store (src/src/store/database.rs) is a prefix-namespaced byte
map holding canonical JSON; it is embedded as one typed association list
per prefix, with `none` playing `DatabaseError::NotFound`.
`DeserializeFailed` cannot arise in the typed embedding (values are only
ever written by the embedded code itself). -/

structure Db where
  messages : List (BlockTx × MessageDataOutcome)
  tx_to_block_tx : List (String × BlockTx)
  asset_list : List (Outpoint × AssetList)
  asset_contract_data : List (BlockTx × AssetContractData)
  pool_data : List (BlockTx × CollateralizedAssetData)
  spec_contract_owned : List (Outpoint × SpecContractOwned)
deriving DecidableEq, Repr

instance : Inhabited Db := ⟨⟨[], [], [], [], [], []⟩⟩

/-- Transaction-scoped allocation (src/src/updater.rs).  The updater.rs
revision under src/ carries `asset_list` and `spec_owned`; the collateral
account fields are those the burn.rs revision reads
(`unallocated_inputs.collateral_accounts`,
`unallocated_inputs.helper_outpoint_collateral_accounts`). -/
structure Allocation where
  asset_list : AssetList
  spec_owned : SpecContractOwned
  collateral_accounts : CollateralAccounts
  helper_outpoint_collateral_accounts : List (CollateralAccount × Outpoint)
deriving DecidableEq, Repr

instance : Inhabited Allocation := ⟨⟨default, default, default, []⟩⟩

structure Updater where
  db : Db
  is_read_only : Bool
  unallocated_inputs : Allocation
  allocated_outputs : List (Nat × Allocation)
deriving DecidableEq, Repr

/-! ## Store accessors (src/src/updater.rs)

Reads are total; the `NotFound` branches return the same defaults the
source returns.  Writes are suppressed in read-only mode exactly as the
source guards them with `is_read_only`. -/

def get_asset_list (u : Updater) (op : Outpoint) : AssetList :=
  (alGet u.db.asset_list op).getD default

def set_asset_list (u : Updater) (op : Outpoint) (al : AssetList) : Updater :=
  if u.is_read_only then u
  else { u with db := { u.db with asset_list := alSet u.db.asset_list op al } }

def delete_asset (u : Updater) (op : Outpoint) : Updater :=
  if u.is_read_only then u
  else { u with db := { u.db with asset_list := alErase u.db.asset_list op } }

def get_spec_contract_owned (u : Updater) (op : Outpoint) : SpecContractOwned :=
  (alGet u.db.spec_contract_owned op).getD default

def set_spec_contract_owned (u : Updater) (op : Outpoint) (s : SpecContractOwned) : Updater :=
  if u.is_read_only then u
  else { u with db := { u.db with spec_contract_owned := alSet u.db.spec_contract_owned op s } }

def delete_spec_contract_owned (u : Updater) (op : Outpoint) : Updater :=
  if u.is_read_only then u
  else { u with db := { u.db with spec_contract_owned := alErase u.db.spec_contract_owned op } }

def get_asset_contract_data (u : Updater) (cid : BlockTx) : AssetContractData :=
  (alGet u.db.asset_contract_data cid).getD default

def set_asset_contract_data (u : Updater) (cid : BlockTx) (d : AssetContractData) : Updater :=
  if u.is_read_only then u
  else { u with db := { u.db with asset_contract_data := alSet u.db.asset_contract_data cid d } }

/-- `Updater::get_message`: a stored outcome with a flaw yields that flaw,
a missing message yields `MessageInvalid`, a missing record
`ContractNotFound`. -/
def get_message (u : Updater) (cid : BlockTx) : Except Flaw OpReturnMessage :=
  match alGet u.db.messages cid with
  | some outcome =>
    match outcome.flaw with
    | some flaw => .error flaw
    | none =>
      match outcome.message with
      | some m => .ok m
      | none => .error .MessageInvalid
  | none => .error .ContractNotFound

def set_message (u : Updater) (cid : BlockTx) (m : OpReturnMessage) : Updater :=
  if u.is_read_only then u
  else { u with db := { u.db with messages := alSet u.db.messages cid ⟨some m, none⟩ } }

/-! ## Script predicates and pointer validation (src/src/updater.rs) -/

def is_op_return_script (s : List ScriptItem) : Bool :=
  match s with
  | .ok (.op c) :: _ => c == OP_RETURN
  | _ => false

def is_op_return_index (o : TxOut) : Bool :=
  is_op_return_script o.script_pubkey

def firstNonOpReturnAux : Nat → List TxOut → Option Nat
  | _, [] => none
  | i, o :: rest =>
    if is_op_return_index o then firstNonOpReturnAux (i + 1) rest else some i

def first_non_op_return_index (tx : Transaction) : Option Nat :=
  firstNonOpReturnAux 0 tx.output

def validate_pointer (pointer : Nat) (tx : Transaction) : Option Flaw :=
  if tx.output.length ≤ pointer then some .PointerOverflow
  else if is_op_return_index (tx.output.getD pointer default) then some .InvalidPointer
  else none

/-! ## Allocation engine (src/src/updater.rs) -/

def allocate_new_asset (u : Updater) (vout : Nat) (cid : BlockTx) (amount : Nat) : Updater :=
  let alloc := (alGet u.allocated_outputs vout).getD default
  let prev := (alGet alloc.asset_list.list cid).getD 0
  let alloc := { alloc with
    asset_list := ⟨alSet alloc.asset_list.list cid (satAdd prev amount)⟩ }
  { u with allocated_outputs := alSet u.allocated_outputs vout alloc }

def move_asset_allocation (u : Updater) (vout : Nat) (cid : BlockTx) (max_amount : Nat) :
    Updater :=
  match alGet u.unallocated_inputs.asset_list.list cid with
  | none => u
  | some bal =>
    let amount := min max_amount bal
    if amount = 0 then u
    else
      let rem := bal - amount
      let newList :=
        if rem = 0 then alErase u.unallocated_inputs.asset_list.list cid
        else alSet u.unallocated_inputs.asset_list.list cid rem
      let u' := { u with
        unallocated_inputs := { u.unallocated_inputs with asset_list := ⟨newList⟩ } }
      allocate_new_asset u' vout cid amount

def allocate_new_spec (u : Updater) (vout : Nat) (spec_id : BlockTx) : Updater :=
  let alloc := (alGet u.allocated_outputs vout).getD default
  let alloc := { alloc with
    spec_owned := ⟨alloc.spec_owned.specs ++ [spec_id]⟩ }
  { u with allocated_outputs := alSet u.allocated_outputs vout alloc }

/-- Modelled after src/src/updater/burn.rs's call
`allocate_new_collateral_accounts`; the defining code is not under src/.
It stages the account under the contract key at `vout`, mirroring
`allocate_new_asset`. -/
def allocate_new_collateral_accounts (u : Updater) (vout : Nat) (ca : CollateralAccount)
    (cid : BlockTx) : Updater :=
  let alloc := (alGet u.allocated_outputs vout).getD default
  let alloc := { alloc with
    collateral_accounts := ⟨alSet alloc.collateral_accounts.collateral_accounts cid ca⟩ }
  { u with allocated_outputs := alSet u.allocated_outputs vout alloc }

/-- Folding one stored asset entry into the unallocated bucket
(saturating add onto the previous balance). -/
def mergeAssetInto (acc : Updater) (kv : BlockTx × Nat) : Updater :=
  let prev := (alGet acc.unallocated_inputs.asset_list.list kv.1).getD 0
  { acc with unallocated_inputs := { acc.unallocated_inputs with
      asset_list := ⟨alSet acc.unallocated_inputs.asset_list.list kv.1
        (satAdd prev kv.2)⟩ } }

/-- `Updater::unallocate_inputs`: folds every input's stored `AssetList`
and `SpecContractOwned` into the unallocated bucket and deletes the
outpoint records. -/
def unallocateOne (u : Updater) (txin : TxIn) : Updater :=
  let op := txin.previous_output
  let stored := get_asset_list u op
  let u1 := stored.list.foldl mergeAssetInto u
  let u2 := delete_asset u1 op
  let specs := get_spec_contract_owned u2 op
  let u3 := { u2 with unallocated_inputs := { u2.unallocated_inputs with
      spec_owned := ⟨u2.unallocated_inputs.spec_owned.specs ++ specs.specs⟩ } }
  delete_spec_contract_owned u3 op

def unallocate_inputs (u : Updater) (tx : Transaction) : Updater :=
  tx.input.foldl unallocateOne u

/-- One iteration of the persist loop of `commit_outputs`
(`set_asset_list` then `set_spec_contract_owned`, both suppressed in
read-only mode; the loop body only touches the store). -/
def persistAllocation (ro : Bool) (txid : String) (d : Db) (p : Nat × Allocation) : Db :=
  if ro then d
  else
    { d with asset_list := alSet d.asset_list ⟨txid, p.1⟩ p.2.asset_list,
             spec_contract_owned := alSet d.spec_contract_owned ⟨txid, p.1⟩ p.2.spec_owned }

/-- `Updater::commit_outputs`: fall every remaining unallocated asset and
spec back to the first non-OP_RETURN output when one exists, persist every
staged output allocation, then reset the transaction-scoped state. -/
def commit_outputs (u : Updater) (tx : Transaction) : Updater :=
  let u1 :=
    match first_non_op_return_index tx with
    | some vout =>
      let ua := u.unallocated_inputs.asset_list.list.foldl
        (fun (acc : Updater) (kv : BlockTx × Nat) =>
          move_asset_allocation acc vout kv.1 kv.2) u
      u.unallocated_inputs.spec_owned.specs.foldl
        (fun acc sid => allocate_new_spec acc vout sid) ua
    | none => u
  let newDb := u1.allocated_outputs.foldl (persistAllocation u1.is_read_only tx.txid) u1.db
  { u1 with db := newDb, unallocated_inputs := default, allocated_outputs := [] }

/-! ## Transfers (src/src/updater.rs, `Updater::transfers`) -/

def transfersGo (tx : Transaction) :
    Updater → Nat → List TxTypeTransfer → List Nat × Updater
  | u, _, [] => ([], u)
  | u, i, t :: rest =>
    if tx.output.length ≤ t.output then
      let r := transfersGo tx u (i + 1) rest
      (i :: r.1, r.2)
    else
      transfersGo tx (move_asset_allocation u t.output t.asset t.amount) (i + 1) rest

def transfers (u : Updater) (tx : Transaction) (ts : List TxTypeTransfer) :
    Option Flaw × Updater :=
  let r := transfersGo tx u 0 ts
  (if r.1.isEmpty then none else some (.OutputOverflow r.1), r.2)

/-! ## Mint (src/src/updater/mint.rs) -/

def get_free_mint_data (u : Updater) (cid : BlockTx) : AssetContractDataFreeMint :=
  match get_asset_contract_data u cid with
  | .freeMint d => d

def update_asset_list_for_mint (u : Updater) (cid : BlockTx) (op : Outpoint)
    (amount : Nat) : Updater :=
  let al := get_asset_list u op
  let prev := (alGet al.list cid).getD 0
  set_asset_list u op ⟨alSet al.list cid (satAdd prev amount)⟩

def update_asset_contract_data_for_free_mint (u : Updater) (cid : BlockTx)
    (d : AssetContractDataFreeMint) : Updater :=
  set_asset_contract_data u cid (.freeMint d)

/-- `Updater::mint_free_mint`.  Checks, in source order: live time, supply
cap (`minted * amount_per_mint + amount_per_mint`, saturating, strictly
above the cap), pointer overflow; then credits the pointed outpoint and
bumps the mint counter.  `end_time` is never read. -/
def mint_free_mint (u : Updater) (asset : AssetContractFreeMint) (tx : Transaction)
    (block_tx : BlockTx) (cid : BlockTx) (mint_option : MintOption) :
    Option Flaw × Updater :=
  if block_tx.block < asset.live_time then (some .LiveTimeNotReached, u)
  else
    let d := get_free_mint_data u cid
    let capExceeded :=
      match asset.supply_cap with
      | some cap =>
        decide (cap < satAdd (satMul d.minted asset.amount_per_mint) asset.amount_per_mint)
      | none => false
    if capExceeded then (some .SupplyCapExceeded, u)
    else
      let d' : AssetContractDataFreeMint := { d with minted := satAdd d.minted 1 }
      if tx.output.length ≤ mint_option.pointer then (some .PointerOverflow, u)
      else
        let op : Outpoint := ⟨tx.txid, mint_option.pointer⟩
        let u1 := update_asset_list_for_mint u cid op asset.amount_per_mint
        (none, update_asset_contract_data_for_free_mint u1 cid d')

/-- Glittr-asset input valuation of `mint_purchase_burn_swap`: the source
loops over the inputs overwriting `total_in_value_glittr_asset`, so the
result is the last input's balance of the asset (or 0). -/
def pbsGlittrInValue (u : Updater) (acid : BlockTx) (tx : Transaction) : Nat :=
  tx.input.foldl
    (fun _ txin => (alGet (get_asset_list u txin.previous_output).list acid).getD 0) 0

/-- Output scan of the burn transfer scheme: walks outputs accumulating
`total_received_value` from OP_RETURN outputs and resolving `vout`,
breaking when the pointer differs from an OP_RETURN position. -/
def pbsBurnScan (ia : InputAsset) (glittrTotal pointer : Nat) :
    List TxOut → Nat → Nat → Option Nat → Nat × Option Nat
  | [], _, received, vout => (received, vout)
  | o :: rest, pos, received, vout =>
    if is_op_return_index o then
      let received' :=
        match ia with
        | .rawBtc => o.value
        | .glittrAsset _ => glittrTotal
        | .metaprotocol => received
      if pointer ≠ pos then (received', some pointer)
      else pbsBurnScan ia glittrTotal pointer rest (pos + 1) received' vout
    else
      let vout' := if vout = none then some pos else vout
      pbsBurnScan ia glittrTotal pointer rest (pos + 1) received vout'

/-- Output scan of the purchase transfer scheme: accumulates value sent to
the configured address (`TxOut.addr` models the external
`Address::from_script`). -/
def pbsPurchaseScan (ia : InputAsset) (glittrTotal : Nat) (bitcoin_address : String)
    (outputs : List TxOut) : Nat :=
  outputs.foldl
    (fun received o =>
      if o.addr = some bitcoin_address then
        match ia with
        | .rawBtc => o.value
        | .glittrAsset _ => glittrTotal
        | .metaprotocol => received
      else received)
    0

/-- `VALIDATE OUT_VALUE` step of `mint_purchase_burn_swap`: the fixed
ratio multiplies then divides (`u128` release semantics: wrapping multiply
modulo `2^128`; a zero denominator panics, modelled `.error none`); the
oracle ratio takes the oracle's `out_value` when the signed message
verifies, else `OracleMintFailed`. -/
def pbsOutValue (sigOk : List Nat → OracleMessageSigned → Bool)
    (rt : TransferRatioType) (mint_option : MintOption) (tx : Transaction)
    (total_received_value : Nat) : Except (Option Flaw) (Option Nat) :=
  match rt with
  | .fixed ratio =>
    if ratio.2 = 0 then .error none
    else .ok (some ((total_received_value * ratio.1) % 2 ^ 128 / ratio.2))
  | .oracle pubkey setting =>
    match mint_option.oracle_message with
    | some oms =>
      if setting.asset_id = oms.message.asset_id then
        let input_found := tx.input.any
          (fun txin => some txin.previous_output = oms.message.input_outpoint)
        let below_min := total_received_value < (oms.message.min_in_value).getD 0
        if ¬ below_min ∧ input_found ∧ sigOk pubkey oms then
          .ok (some ((oms.message.out_value).getD 0))
        else .error (some .OracleMintFailed)
      else .error (some .OracleMintFailed)
    | none => .error (some .OracleMintFailed)

/-- `Updater::mint_purchase_burn_swap`.  `sigOk` abstracts the external
Schnorr verification (`pubkey.verify` over the SHA-256 of the canonical
JSON), including the signature/pubkey byte parsing.  The result is `none`
on the source's panic paths (`vout.unwrap()` on `None`; division by a zero
fixed-ratio denominator).  The credited amount is reduced modulo `2^32` by
the source's `out_value as u32` cast. -/
def mint_purchase_burn_swap (sigOk : List Nat → OracleMessageSigned → Bool)
    (u : Updater) (pbs : AssetContractPurchaseBurnSwap) (tx : Transaction)
    (cid : BlockTx) (mint_option : MintOption) : Option (Option Flaw × Updater) :=
  let glittrTotal :=
    match pbs.input_asset with
    | .glittrAsset acid => pbsGlittrInValue u acid tx
    | _ => 0
  let scanned :=
    match pbs.transfer_scheme with
    | .burn =>
      pbsBurnScan pbs.input_asset glittrTotal mint_option.pointer tx.output 0 0 none
    | .purchase addr =>
      (pbsPurchaseScan pbs.input_asset glittrTotal addr tx.output, some mint_option.pointer)
  let total_received_value := scanned.1
  let vout := scanned.2
  match pbsOutValue sigOk pbs.transfer_ratio_type mint_option tx total_received_value with
  | .error none => none
  | .error (some flaw) => some (some flaw, u)
  | .ok outv =>
    let out_value := outv.getD 0
    match vout with
    | none => none
    | some v =>
      if tx.output.length < v then some (some .PointerOverflow, u)
      else
        let op : Outpoint := ⟨tx.txid, v⟩
        some (none, update_asset_list_for_mint u cid op (out_value % 2 ^ 32))

/-- `Updater::mint`: loads the creation message of the contract and
dispatches on its mint mechanism (free mint, purchase/burn/swap,
preallocated → `NotImplemented`); anything that is not an asset-creation
message is `ContractNotMatch`. -/
def mint (sigOk : List Nat → OracleMessageSigned → Bool) (u : Updater)
    (tx : Transaction) (block_tx : BlockTx) (cid : BlockTx)
    (mint_option : MintOption) : Option (Option Flaw × Updater) :=
  match get_message u cid with
  | .error flaw => some (some flaw, u)
  | .ok m =>
    match m.contract_creation with
    | none => some (some .ContractNotMatch, u)
    | some cc =>
      match cc.contract_type with
      | .moa moa =>
        match moa.mint_mechanism.free_mint with
        | some fm => some (mint_free_mint u fm tx block_tx cid mint_option)
        | none =>
          match moa.mint_mechanism.purchase with
          | some pbs => mint_purchase_burn_swap sigOk u pbs tx cid mint_option
          | none =>
            match moa.mint_mechanism.preallocated with
            | some _ => some (some .NotImplemented, u)
            | none => some (some .ContractNotMatch, u)
      | _ => some (some .ContractNotMatch, u)

/-! ## Burn (src/src/updater/burn.rs)

The helpers `validate_oracle_message`, `validate_and_calculate_ratio_type`
and `validate_and_update_supply_cap` are called by burn.rs but their
definitions are not under src/; they are modelled from the spec below. -/

/-- Modelled from the spec (section 4.4.3, oracle message validation):
Schnorr signature over the canonical JSON hash (abstracted by `sigOk`),
staleness window against the current block, asset-id match. -/
def validate_oracle_message (sigOk : List Nat → OracleMessageSigned → Bool)
    (oms : OracleMessageSigned) (setting : OracleSetting) (block_tx : BlockTx) :
    Option Flaw :=
  if setting.asset_id ≠ oms.message.asset_id then some .OracleMintFailed
  else if setting.block_height_slippage <
      max block_tx.block oms.message.block_height -
        min block_tx.block oms.message.block_height then
    some .OracleMintStale
  else if ¬ sigOk setting.pubkey oms then some .OracleMintFailed
  else none

/-- Modelled from the spec: the ratio mint/burn structure computes the
returned value from an oracle-validated ratio over the processed amount;
its defining code is not under src/. -/
def validate_and_calculate_ratio_type (sigOk : List Nat → OracleMessageSigned → Bool)
    (rt : RatioType) (amount : Nat) (burn_option : MintBurnOption)
    (block_tx : BlockTx) : Except Flaw Nat :=
  match burn_option.oracle_message with
  | none => .error .OracleMintFailed
  | some oms =>
    match validate_oracle_message sigOk oms rt.oracle_setting block_tx with
    | some flaw => .error flaw
    | none =>
      match oms.message.ratio with
      | none => .error .OutValueNotFound
      | some r =>
        if r.2 = 0 then .error .OracleMintFailed
        else .ok (amount * r.1 / r.2)

/-- Modelled from the spec: the burn path's supply bookkeeping
(`validate_and_update_supply_cap` with `increase = false`) adds the burned
amount to the contract's `burned_supply` counter; its defining code is not
under src/.  The spec states no failure condition for it on burn. -/
def validate_and_update_supply_cap (u : Updater) (cid : BlockTx) (amount : Nat) :
    Option Flaw × Updater :=
  let d := get_free_mint_data u cid
  let d' : AssetContractDataFreeMint := { d with burned := satAdd d.burned amount }
  (none, update_asset_contract_data_for_free_mint u cid d')

/-- Proportional pool withdrawal of `burn_return_collateral`.  The source
duplicates this code verbatim between the `ConstantProduct` and
`ConstantSum` arms; it is factored here and called from both arms.
Result: `none` models the panic of `saturating_div` by a zero
`total_supply` and of indexing a too-short `input_assets`; `Except` errors
are the early flaw returns. -/
def burnProportionalBranch (u : Updater) (collateralized : Collateralized)
    (cid : BlockTx) (burned_amount : Nat) :
    Option (Except Flaw (List Nat × Updater)) :=
  match collateralized.input_assets.get? 0 with
  | none => none
  | some ia0 =>
    match ia0 with
    | .glittrAsset first_asset_id =>
      match collateralized.input_assets.get? 1 with
      | none => none
      | some ia1 =>
        match ia1 with
        | .glittrAsset second_asset_id =>
          match alGet u.db.pool_data cid with
          | none => some (.error .PoolNotFound)
          | some pool_data =>
            match alGet pool_data.amounts first_asset_id with
            | none => some (.error .PoolNotFound)
            | some existing0 =>
              match alGet pool_data.amounts second_asset_id with
              | none => some (.error .PoolNotFound)
              | some existing1 =>
                if pool_data.total_supply = 0 then none
                else
                  let share := satMul burned_amount 1000000 / pool_data.total_supply
                  let return0 := satMul existing0 share / 1000000
                  let return1 := satMul existing1 share / 1000000
                  if return0 = 0 ∨ return1 = 0 then
                    some (.error .InsufficientOutputAmount)
                  else
                    let pool' : CollateralizedAssetData :=
                      { amounts := alSet (alSet pool_data.amounts first_asset_id
                          (existing0 - return0)) second_asset_id (existing1 - return1),
                        total_supply := pool_data.total_supply - burned_amount }
                    let u' :=
                      if u.is_read_only then u
                      else { u with db :=
                        { u.db with pool_data := alSet u.db.pool_data cid pool' } }
                    some (.ok ([return0, return1], u'))
        | _ => some (.error .PoolNotFound)
    | _ => some (.error .PoolNotFound)

/-- Collateral-account branch of `burn_return_collateral` (burn.rs lines
208-307).  `none` models the `collateral_account_outpoint.unwrap()`
panic. -/
def burnAccountBranch (sigOk : List Nat → OracleMessageSigned → Bool) (u : Updater)
    (return_collateral : ReturnCollateral) (tx : Transaction) (block_tx : BlockTx)
    (cid : BlockTx) (burn_option : MintBurnOption) (burned_amount : Nat) :
    Option (Except Flaw Updater) :=
  match alGet u.unallocated_inputs.collateral_accounts.collateral_accounts cid with
  | none => some (.error .CollateralAccountNotFound)
  | some ca0 =>
    let u := { u with unallocated_inputs := { u.unallocated_inputs with
        collateral_accounts :=
          ⟨alErase u.unallocated_inputs.collateral_accounts.collateral_accounts cid⟩ } }
    let caOutpoint := alGet u.unallocated_inputs.helper_outpoint_collateral_accounts ca0
    let u := { u with unallocated_inputs := { u.unallocated_inputs with
        helper_outpoint_collateral_accounts :=
          alErase u.unallocated_inputs.helper_outpoint_collateral_accounts ca0 } }
    let afterOracle : Option (Except Flaw (CollateralAccount × Updater)) :=
      match burn_option.oracle_message with
      | none => some (.ok (ca0, u))
      | some oms =>
        match oms.message.input_outpoint with
        | none => some (.ok (ca0, u))
        | some expected =>
          let settingCheck : Option (Option Flaw) :=
            match return_collateral.oracle_setting with
            | none => some none
            | some setting =>
              match caOutpoint with
              | none => none
              | some op =>
                if expected ≠ op then some (some .OracleMintFailed)
                else some (validate_oracle_message sigOk oms setting block_tx)
          match settingCheck with
          | none => none
          | some (some flaw) => some (.error flaw)
          | some none =>
            match oms.message.ltv with
            | none => some (.error .LtvMustBeUpdated)
            | some ltv =>
              let ca := { ca0 with ltv := ltv }
              match oms.message.outstanding with
              | none => some (.error .OutstandingMustBeUpdated)
              | some outstanding =>
                let ca := { ca with amount_outstanding := outstanding }
                match oms.message.out_value with
                | none => some (.error .OutValueNotFound)
                | some out_value =>
                  if burned_amount < out_value then some (.error .BurnValueIncorrect)
                  else
                    let rem := burned_amount - out_value
                    if 0 < rem then
                      match burn_option.pointer with
                      | some pointer =>
                        match validate_pointer pointer tx with
                        | some flaw => some (.error flaw)
                        | none => some (.ok (ca, allocate_new_asset u pointer cid rem))
                      | none =>
                        some (.ok (ca, { u with unallocated_inputs :=
                          { u.unallocated_inputs with asset_list :=
                            ⟨alSet u.unallocated_inputs.asset_list.list cid rem⟩ } }))
                    else some (.ok (ca, u))
    match afterOracle with
    | none => none
    | some (.error flaw) => some (.error flaw)
    | some (.ok (ca, u)) =>
      match burn_option.pointer_to_key with
      | none => some (.error .PointerKeyNotFound)
      | some ptk =>
        match validate_pointer ptk tx with
        | some flaw => some (.error flaw)
        | none => some (.ok (allocate_new_collateral_accounts u ptk ca cid))

/-- Credit loop at the end of `burn_return_collateral`: Rust indexes
`collateralized.input_assets[pos]`, panicking (`none`) when out of
range. -/
def burnAllocateReturns (assets : List InputAsset) (pointer : Nat) :
    Updater → Nat → List Nat → Option Updater
  | u, _, [] => some u
  | u, pos, v :: rest =>
    match assets.get? pos with
    | none => none
    | some (.glittrAsset aid) =>
      burnAllocateReturns assets pointer (allocate_new_asset u pointer aid v) (pos + 1) rest
    | some _ => burnAllocateReturns assets pointer u (pos + 1) rest

/-- Common tail of `burn_return_collateral`: supply bookkeeping followed
by the optional pointer credit of the returned amounts. -/
def burnTail (u : Updater) (collateralized : Collateralized) (out_values : List Nat)
    (burn_option : MintBurnOption) (tx : Transaction) (cid : BlockTx)
    (burned_amount : Nat) : Option (Option Flaw × Updater) :=
  let r := validate_and_update_supply_cap u cid burned_amount
  match r.1 with
  | some flaw => some (some flaw, r.2)
  | none =>
    let u := r.2
    match burn_option.pointer with
    | none => some (none, u)
    | some pointer =>
      match validate_pointer pointer tx with
      | some flaw => some (some flaw, u)
      | none =>
        match burnAllocateReturns collateralized.input_assets pointer u 0 out_values with
        | none => none
        | some u' => some (none, u')

/-- `Updater::burn_return_collateral`. -/
def burn_return_collateral (sigOk : List Nat → OracleMessageSigned → Bool)
    (u : Updater) (mba : MintBurnAssetContract) (return_collateral : ReturnCollateral)
    (tx : Transaction) (block_tx : BlockTx) (cid : BlockTx)
    (burn_option : MintBurnOption) : Option (Option Flaw × Updater) :=
  let burned_amount := (alGet u.unallocated_inputs.asset_list.list cid).getD 0
  let u := { u with unallocated_inputs := { u.unallocated_inputs with
      asset_list := ⟨alErase u.unallocated_inputs.asset_list.list cid⟩ } }
  if burned_amount = 0 then some (some .InsufficientInputAmount, u)
  else
    match mba.mint_mechanism.collateralized with
    | none => some (some .InvalidContractType, u)
    | some collateralized =>
      match collateralized.mint_structure with
      | .ratio rt =>
        match validate_and_calculate_ratio_type sigOk rt burned_amount burn_option
            block_tx with
        | .error flaw => some (some flaw, u)
        | .ok out_value =>
          burnTail u collateralized [out_value] burn_option tx cid burned_amount
      | .proportional _ =>
        match burnProportionalBranch u collateralized cid burned_amount with
        | none => none
        | some (.error flaw) => some (some flaw, u)
        | some (.ok (out_values, u')) =>
          burnTail u' collateralized out_values burn_option tx cid burned_amount
      | .account _ =>
        match burnAccountBranch sigOk u return_collateral tx block_tx cid burn_option
            burned_amount with
        | none => none
        | some (.error flaw) => some (some flaw, u)
        | some (.ok u') =>
          burnTail u' collateralized [] burn_option tx cid burned_amount

/-- Modelled from the spec: `check_live_time` is called by burn.rs but
defined outside src/; spec section 4.4.3 rejects `block < live_time` with
`LiveTimeNotReached` and, when `end_time` is set, `block ≥ end_time` with
`LiveTimeExpired`. -/
def check_live_time (live_time : Nat) (end_time : Option Nat)
    (_contract_block block : Nat) : Option Flaw :=
  if block < live_time then some .LiveTimeNotReached
  else
    match end_time with
    | some e => if e ≤ block then some .LiveTimeExpired else none
    | none => none

/-- `Updater::burn` (burn.rs lines 346-385): dispatch on the creation
message; an MOA contract returns silently with no flaw and no state
change. -/
def burn (sigOk : List Nat → OracleMessageSigned → Bool) (u : Updater)
    (tx : Transaction) (block_tx : BlockTx) (cid : BlockTx)
    (burn_option : MintBurnOption) (message : Except Flaw OpReturnMessage) :
    Option (Option Flaw × Updater) :=
  match message with
  | .error flaw => some (some flaw, u)
  | .ok m =>
    match m.contract_creation with
    | none => some (some .ContractNotMatch, u)
    | some cc =>
      match cc.contract_type with
      | .moa _ => some (none, u)
      | .mba mba =>
        match check_live_time mba.live_time mba.end_time cid.block block_tx.block with
        | some flaw => some (some flaw, u)
        | none =>
          match mba.burn_mechanism.return_collateral with
          | some rc =>
            burn_return_collateral sigOk u mba rc tx block_tx cid burn_option
          | none => some (some .NotImplemented, u)
      | _ => some (some .ContractNotMatch, u)

/-! ## Codec (src/src/transaction/message.rs)

The JSON document codec is the external serde library; it enters as the
`enc`/`dec` parameters.  `OP_RETURN_MAGIC` models the fixed ASCII tag of
constants.rs (not under src/); its exact bytes are irrelevant to the
embedded logic. -/

def OP_RETURN_MAGIC : List Nat := [71, 76, 73, 84, 84, 82]

/-- Tail of the carrier script after the magic push: pushes concatenate
into the payload, a non-push opcode is `InvalidInstruction`, an
undecodable instruction is `InvalidScript`. -/
def collectPayload : List ScriptItem → Except Flaw (List Nat)
  | [] => .ok []
  | .ok (.push p) :: rest =>
    match collectPayload rest with
    | .ok acc => .ok (p ++ acc)
    | .error e => .error e
  | .ok (.op o) :: _ => .error (.InvalidInstruction o)
  | .err :: _ => .error .InvalidScript

/-- Recognize a carrier script: `OP_RETURN` then a push equal to the magic
tag; returns the remaining instruction stream. -/
def scriptCarrier (s : List ScriptItem) : Option (List ScriptItem) :=
  match s with
  | .ok (.op c) :: rest =>
    if c = OP_RETURN then
      match rest with
      | .ok (.push m) :: rest2 => if m = OP_RETURN_MAGIC then some rest2 else none
      | _ => none
    else none
  | _ => none

def findPayload : List TxOut → Option (Except Flaw (List Nat))
  | [] => none
  | o :: rest =>
    match scriptCarrier o.script_pubkey with
    | some tail => some (collectPayload tail)
    | none => findPayload rest

/-- `OpReturnMessage::parse_tx`. -/
def parse_tx (dec : List Nat → Option OpReturnMessage) (tx : Transaction) :
    Except Flaw OpReturnMessage :=
  match findPayload tx.output with
  | some (.error e) => .error e
  | some (.ok payload) =>
    if payload = [] then .error .NonGlittrMessage
    else
      match dec payload with
      | none => .error .FailedDeserialization
      | some m =>
        if m.contract_call = none ∧ m.contract_creation = none ∧ m.transfer = none then
          .error .FailedDeserialization
        else .ok m
  | none => .error .NonGlittrMessage

/-- `OpReturnMessage::into_script`: `OP_RETURN`, the magic push, then the
JSON document as a single push. -/
def into_script (enc : OpReturnMessage → List Nat) (m : OpReturnMessage) :
    List ScriptItem :=
  [.ok (.op OP_RETURN), .ok (.push OP_RETURN_MAGIC), .ok (.push (enc m))]

/-! ## Static validation (src/src/transaction/message.rs)

`OpReturnMessage::validate` dispatches to per-contract validators whose
files are not under src/; those are modelled from spec section 4.2.  The
`CallType` validator is in src/ and returns `None`. -/

/-- Modelled from the spec (section 4.2): divisibility bound and free-mint
self-consistency for an MOA creation. -/
def moaValidate (m : MintOnlyAssetContract) : Option Flaw :=
  if 18 < m.divisibility then some .MessageInvalid
  else
    match m.mint_mechanism.free_mint with
    | some fm =>
      if fm.amount_per_mint = 0 then some .MessageInvalid
      else
        match fm.supply_cap with
        | some cap => if cap < fm.amount_per_mint then some .MessageInvalid else none
        | none => none
    | none => none

/-- Modelled from the spec (section 4.2): divisibility bound and the AMM
requirement of exactly two distinct input assets. -/
def mbaValidate (m : MintBurnAssetContract) : Option Flaw :=
  if 18 < m.divisibility then some .MessageInvalid
  else
    match m.mint_mechanism.collateralized with
    | some c =>
      match c.mint_structure with
      | .proportional _ =>
        if c.input_assets.length = 2 ∧ c.input_assets.get? 0 ≠ c.input_assets.get? 1
        then none else some .MessageInvalid
      | _ => none
    | none => none

/-- `OpReturnMessage::validate`. -/
def messageValidate (m : OpReturnMessage) : Option Flaw :=
  match m.contract_creation with
  | some cc =>
    match cc.contract_type with
    | .moa c => moaValidate c
    | .mba c => mbaValidate c
    | .spec _ => none
    | .nft _ => none
  | none =>
    match m.contract_call with
    | some _ => none
    | none => none

/-! ## Spec-contract operations (called from src/src/updater.rs; spec.rs
is not under src/) -/

/-- Modelled from the spec (section 4.4.2(1)): creation against a spec
template requires the spec to be owned through the input bucket. -/
def validate_contract_by_spec (u : Updater) (spec_id : BlockTx)
    (_ct : ContractType) : Option Flaw :=
  if spec_id ∈ u.unallocated_inputs.spec_owned.specs then none else some .SpecNotOwned

/-- Modelled from the spec (section 4.4.2(3)): a new spec stages a
`SpecContractOwned` entry that the commit step allocates to the fallback
vout. -/
def create_spec (u : Updater) (block : Nat) (tx_index : Nat) (_tx : Transaction)
    (_sc : SpecContract) : Option Flaw × Updater :=
  (none, { u with unallocated_inputs := { u.unallocated_inputs with
      spec_owned := ⟨u.unallocated_inputs.spec_owned.specs ++ [⟨block, tx_index⟩]⟩ } })

/-- Modelled from the spec (section 4.4.2(3)): updating a spec requires
owning it through the input bucket, otherwise `SpecNotOwned`. -/
def update_spec (u : Updater) (cid : BlockTx) (_sc : SpecContract) :
    Option Flaw × Updater :=
  if cid ∈ u.unallocated_inputs.spec_owned.specs then (none, u)
  else (some .SpecNotOwned, u)

/-! ## Index driver (src/src/updater.rs, `Updater::index`)

The updater.rs revision under src/ executes transfers, contract creation
and the mint call; its `Burn` and `Swap` arms only log, and the remaining
call types of message.rs fall through unhandled; all of those leave state
untouched.  The result is `none` when the mint path panics. -/

/-- Transfer step of `Updater::index`: run only when no flaw was recorded
yet. -/
def indexTransferStep (u : Updater) (tx : Transaction) (message : OpReturnMessage)
    (flaw0 : Option Flaw) : Option Flaw × Updater :=
  match message.transfer with
  | some t => if flaw0 = none then transfers u tx t.transfers else (flaw0, u)
  | none => (flaw0, u)

/-- Contract-creation step of `Updater::index`: spec-conformance check,
purchase-reference check for asset creations, spec create/update.  The
updater.rs revision under src/ only has the asset and spec arms. -/
def indexCreationStep (u1 : Updater) (block_height : Nat) (tx_index : Nat)
    (tx : Transaction) (message : OpReturnMessage) (flaw1 : Option Flaw) :
    Option Flaw × Updater :=
  match message.contract_creation with
  | none => (flaw1, u1)
  | some cc =>
    let flawA :=
      match cc.spec with
      | some sid =>
        if flaw1 = none then validate_contract_by_spec u1 sid cc.contract_type
        else flaw1
      | none => flaw1
    match cc.contract_type with
    | .moa moa =>
      match moa.mint_mechanism.purchase with
      | some purchase =>
        match purchase.input_asset with
        | .glittrAsset ref =>
          match get_message u1 ref with
          | .ok refMsg =>
            if refMsg.contract_creation = none ∧ flawA = none then
              (some .ReferencingFlawedBlockTx, u1)
            else (flawA, u1)
          | .error _ =>
            if flawA = none then (some .ReferencingFlawedBlockTx, u1)
            else (flawA, u1)
        | _ => (flawA, u1)
      | none => (flawA, u1)
    | .spec sc =>
      match sc.block_tx with
      | some cid =>
        if flawA = none then update_spec u1 cid sc else (flawA, u1)
      | none =>
        if flawA = none then create_spec u1 block_height tx_index tx sc
        else (flawA, u1)
    | _ => (flawA, u1)

/-- Contract-call step of `Updater::index`: only the mint call executes;
the Burn and Swap arms of the updater.rs revision only log, and the other
call types fall through. -/
def indexCallStep (sigOk : List Nat → OracleMessageSigned → Bool) (u2 : Updater)
    (tx : Transaction) (block_tx : BlockTx) (message : OpReturnMessage)
    (flaw2 : Option Flaw) : Option (Option Flaw × Updater) :=
  match message.contract_call with
  | none => some (flaw2, u2)
  | some call =>
    match call.call_type with
    | .mint mo =>
      if flaw2 = none then
        match call.contract with
        | some cid => mint sigOk u2 tx block_tx cid mo
        | none => some (some .ContractNotFound, u2)
      else some (flaw2, u2)
    | _ => some (flaw2, u2)

/-- Execution stage of `Updater::index` (everything before the final
outcome/txid store writes). -/
def indexExec (sigOk : List Nat → OracleMessageSigned → Bool) (u : Updater)
    (block_height : Nat) (tx_index : Nat) (tx : Transaction)
    (message_result : Except Flaw OpReturnMessage) :
    Option (MessageDataOutcome × Updater) :=
  let block_tx : BlockTx := ⟨block_height, tx_index⟩
  match message_result with
    | .error flaw => some ({ message := none, flaw := some flaw }, u)
    | .ok message =>
      let step1 := indexTransferStep u tx message (messageValidate message)
      let step2 := indexCreationStep step1.2 block_height tx_index tx message step1.1
      match indexCallStep sigOk step2.2 tx block_tx message step2.1 with
      | none => none
      | some r => some ({ message := some message, flaw := r.1 }, r.2)

/-- `Updater::index`: execution stage, then the unconditional persistence
of the outcome under `(block, tx_index)` and of the txid → BlockTx map
entry. -/
def index (sigOk : List Nat → OracleMessageSigned → Bool) (u : Updater)
    (block_height : Nat) (tx_index : Nat) (tx : Transaction)
    (message_result : Except Flaw OpReturnMessage) :
    Option (MessageDataOutcome × Updater) :=
  let block_tx : BlockTx := ⟨block_height, tx_index⟩
  match indexExec sigOk u block_height tx_index tx message_result with
  | none => none
  | some r =>
    let outcome := r.1
    let uf := r.2
    let uf1 :=
      if uf.is_read_only then uf
      else { uf with db := { uf.db with
          messages := alSet uf.db.messages block_tx outcome,
          tx_to_block_tx := alSet uf.db.tx_to_block_tx tx.txid block_tx } }
    some (outcome, uf1)

/-! ## Observation helpers used by the theorems -/

/-- Unallocated-bucket balance of one asset. -/
def unallocatedAmount (u : Updater) (cid : BlockTx) : Nat :=
  (alGet u.unallocated_inputs.asset_list.list cid).getD 0

/-- Staged balance of one asset on one output. -/
def allocatedAmount (u : Updater) (vout : Nat) (cid : BlockTx) : Nat :=
  (alGet ((alGet u.allocated_outputs vout).getD default).asset_list.list cid).getD 0

/-- Indices of transfer entries whose output is out of range, in list
order. -/
def overflowIndices (tx : Transaction) (ts : List TxTypeTransfer) : List Nat :=
  ((ts.enum).filter (fun p => tx.output.length ≤ p.2.output)).map Prod.fst

/-- In-range transfer entries folded through `move_asset_allocation` in
list order. -/
def validMoves (u : Updater) (tx : Transaction) (ts : List TxTypeTransfer) : Updater :=
  (ts.filter (fun t => t.output < tx.output.length)).foldl
    (fun acc t => move_asset_allocation acc t.output t.asset t.amount) u

theorem transfersGo_eq (tx : Transaction) (ts : List TxTypeTransfer) :
    ∀ (u : Updater) (i : Nat),
      transfersGo tx u i ts =
        (((ts.enumFrom i).filter (fun p => tx.output.length ≤ p.2.output)).map Prod.fst,
          validMoves u tx ts) := by
  induction ts with
  | nil => intro u i; simp [transfersGo, validMoves]
  | cons t rest ih =>
    intro u i
    by_cases h : tx.output.length ≤ t.output
    · have hnot : ¬ t.output < tx.output.length := by omega
      simp [transfersGo, h, ih, validMoves, List.enumFrom, List.filter, hnot]
    · have hlt : t.output < tx.output.length := by omega
      simp [transfersGo, h, ih, validMoves, List.enumFrom, List.filter, hlt]

theorem move_asset_allocation_zero (u : Updater) (v : Nat) (cid : BlockTx) (amt : Nat)
    (h : min amt (unallocatedAmount u cid) = 0) :
    move_asset_allocation u v cid amt = u := by
  unfold move_asset_allocation
  unfold unallocatedAmount at h
  cases hget : alGet u.unallocated_inputs.asset_list.list cid with
  | none => simp
  | some bal =>
    simp only [hget, Option.getD_some] at h
    simp [h]

theorem move_asset_allocation_pos (u : Updater) (v : Nat) (cid : BlockTx) (amt : Nat)
    (h : 0 < min amt (unallocatedAmount u cid)) :
    allocatedAmount (move_asset_allocation u v cid amt) v cid
        = satAdd (allocatedAmount u v cid) (min amt (unallocatedAmount u cid))
      ∧ unallocatedAmount (move_asset_allocation u v cid amt) cid
        = unallocatedAmount u cid - min amt (unallocatedAmount u cid) := by
  unfold unallocatedAmount at h ⊢
  cases hget : alGet u.unallocated_inputs.asset_list.list cid with
  | none => simp [hget] at h
  | some bal =>
    simp only [hget, Option.getD_some] at h ⊢
    have hne : ¬ min amt bal = 0 := by omega
    constructor
    · unfold allocatedAmount
      simp only [move_asset_allocation, hget, hne, if_false, allocate_new_asset,
        alGet_alSet_same, Option.getD_some, alGet_alSet_same]
    · simp only [move_asset_allocation, hget, hne, if_false, allocate_new_asset]
      by_cases hrem : bal - min amt bal = 0
      · simp [hrem, alGet_alErase, hrem]
      · simp [hrem, alGet_alSet_same]

/-- C3: transfer entries are processed in list order; an entry whose
output index is out of range is skipped and its position recorded; every
other entry moves the minimum of the requested amount and the remaining
unallocated balance of its asset (so earlier entries can exhaust the
bucket for later ones); the flaw is `OutputOverflow` of exactly the
recorded indices, and only when at least one entry overflowed. -/
theorem transfers_order_overflow_min (u : Updater) (tx : Transaction)
    (ts : List TxTypeTransfer) :
    (transfers u tx ts).2 = validMoves u tx ts
    ∧ ((transfers u tx ts).1 = none ↔ overflowIndices tx ts = [])
    ∧ (overflowIndices tx ts ≠ [] →
        (transfers u tx ts).1 = some (.OutputOverflow (overflowIndices tx ts)))
    ∧ (∀ (u' : Updater) (v : Nat) (cid : BlockTx) (amt : Nat),
        (min amt (unallocatedAmount u' cid) = 0 →
          move_asset_allocation u' v cid amt = u')
        ∧ (0 < min amt (unallocatedAmount u' cid) →
            allocatedAmount (move_asset_allocation u' v cid amt) v cid
              = satAdd (allocatedAmount u' v cid) (min amt (unallocatedAmount u' cid))
            ∧ unallocatedAmount (move_asset_allocation u' v cid amt) cid
              = unallocatedAmount u' cid - min amt (unallocatedAmount u' cid))) := by
  have hgo := transfersGo_eq tx ts u 0
  have hov : overflowIndices tx ts
      = ((ts.enumFrom 0).filter (fun p => tx.output.length ≤ p.2.output)).map Prod.fst := by
    simp [overflowIndices, List.enum]
  refine ⟨?_, ?_, ?_, ?_⟩
  · simp [transfers, hgo]
  · rw [hov]; simp only [transfers, hgo]
    cases ((ts.enumFrom 0).filter (fun p => tx.output.length ≤ p.2.output)).map Prod.fst
      <;> simp
  · rw [hov]; simp only [transfers, hgo]
    intro hne
    cases hl : ((ts.enumFrom 0).filter (fun p => tx.output.length ≤ p.2.output)).map
        Prod.fst with
    | nil => exact absurd hl hne
    | cons a l => simp [hl]
  · intro u' v cid amt
    exact ⟨move_asset_allocation_zero u' v cid amt, move_asset_allocation_pos u' v cid amt⟩

/-- C3 witness: the boundary scenario of spec section 8 — a 50-unit
bucket, transfers `[(A, 0, 30), (A, 99, 10)]` against a 2-output
transaction: the second entry overflows and is reported, the first moves
in full. -/
theorem transfers_order_overflow_min_witness :
    (let A : BlockTx := ⟨1, 1⟩
     let u : Updater :=
       { db := default, is_read_only := false,
         unallocated_inputs := { (default : Allocation) with asset_list := ⟨[(A, 50)]⟩ },
         allocated_outputs := [] }
     let tx : Transaction :=
       { txid := "t", input := [],
         output := [⟨[], 0, none⟩, ⟨[], 0, none⟩] }
     let ts : List TxTypeTransfer := [⟨A, 0, 30⟩, ⟨A, 99, 10⟩]
     (transfers u tx ts).1 = some (.OutputOverflow [1])
       ∧ allocatedAmount (transfers u tx ts).2 0 A = 30
       ∧ unallocatedAmount (transfers u tx ts).2 A = 20) := by
  have h := transfers_order_overflow_min
    { db := default, is_read_only := false,
      unallocated_inputs := { (default : Allocation) with asset_list := ⟨[(⟨1, 1⟩, 50)]⟩ },
      allocated_outputs := [] }
    { txid := "t", input := [], output := [⟨[], 0, none⟩, ⟨[], 0, none⟩] }
    [⟨⟨1, 1⟩, 0, 30⟩, ⟨⟨1, 1⟩, 99, 10⟩]
  refine ⟨h.2.2.1 (by decide), by decide, by decide⟩

/-! ## C2: free-mint supply cap -/

/-- Stored balance of one asset at one outpoint. -/
def outpointBalance (u : Updater) (op : Outpoint) (cid : BlockTx) : Nat :=
  (alGet (get_asset_list u op).list cid).getD 0

/-- Bumping the mint counter by one increments the derived minted supply
by `amount_per_mint`, also under U128 saturation. -/
theorem satMul_satAdd_one (m a : Nat) : satMul (satAdd m 1) a = satAdd (satMul m a) a := by
  unfold satMul satAdd
  rcases Nat.le_total (m + 1) U128MAX with h | h
  · rw [min_eq_left h]
    rcases Nat.le_total (m * a) U128MAX with h2 | h2
    · rw [min_eq_left h2, Nat.succ_mul]
    · rw [min_eq_right h2]
      have hma : U128MAX ≤ (m + 1) * a := by
        calc U128MAX ≤ m * a := h2
        _ ≤ (m + 1) * a := Nat.mul_le_mul_right a (Nat.le_succ m)
      rw [min_eq_right hma, min_eq_right (Nat.le_add_right _ _)]
  · rw [min_eq_right h]
    cases a with
    | zero => simp
    | succ a' =>
      have h1 : U128MAX ≤ U128MAX * (a' + 1) := Nat.le_mul_of_pos_right _ (Nat.succ_pos a')
      rw [min_eq_right h1]
      have h2 : U128MAX ≤ min (m * (a' + 1)) U128MAX + (a' + 1) := by
        rcases Nat.le_total U128MAX (m * (a' + 1)) with hc | hc
        · rw [min_eq_right hc]; omega
        · rw [min_eq_left hc]
          have h3 : U128MAX ≤ (m + 1) * (a' + 1) :=
            le_trans h (Nat.le_mul_of_pos_right _ (Nat.succ_pos a'))
          calc U128MAX ≤ (m + 1) * (a' + 1) := h3
          _ = m * (a' + 1) + (a' + 1) := by ring
      rw [min_eq_right h2]

/-- C2: a free mint against a capped contract fails with
`SupplyCapExceeded` and leaves all state unchanged exactly when the next
supply (`minted_supply + amount_per_mint` in saturating U128 arithmetic)
exceeds the cap; when it is at most the cap (equality included) the mint
reports no flaw, credits `amount_per_mint` to the outpoint designated by
`mint_option.pointer`, and increments the minted supply by
`amount_per_mint`. -/
theorem mint_free_mint_supply_cap (u : Updater) (asset : AssetContractFreeMint)
    (tx : Transaction) (block_tx cid : BlockTx) (mo : MintOption) (cap : Nat)
    (hcap : asset.supply_cap = some cap)
    (hlive : asset.live_time ≤ block_tx.block)
    (hptr : mo.pointer < tx.output.length)
    (hro : u.is_read_only = false) :
    (cap < satAdd (satMul (get_free_mint_data u cid).minted asset.amount_per_mint)
        asset.amount_per_mint →
      mint_free_mint u asset tx block_tx cid mo = (some .SupplyCapExceeded, u))
    ∧ (satAdd (satMul (get_free_mint_data u cid).minted asset.amount_per_mint)
          asset.amount_per_mint ≤ cap →
      (mint_free_mint u asset tx block_tx cid mo).1 = none
      ∧ outpointBalance (mint_free_mint u asset tx block_tx cid mo).2
            ⟨tx.txid, mo.pointer⟩ cid
          = satAdd (outpointBalance u ⟨tx.txid, mo.pointer⟩ cid) asset.amount_per_mint
      ∧ (get_free_mint_data (mint_free_mint u asset tx block_tx cid mo).2 cid).minted
          = satAdd (get_free_mint_data u cid).minted 1
      ∧ satMul (get_free_mint_data (mint_free_mint u asset tx block_tx cid mo).2 cid).minted
            asset.amount_per_mint
          = satAdd (satMul (get_free_mint_data u cid).minted asset.amount_per_mint)
              asset.amount_per_mint) := by
  have hnl : ¬ block_tx.block < asset.live_time := by omega
  have hnp : ¬ tx.output.length ≤ mo.pointer := by omega
  constructor
  · intro hover
    have hdec : decide (cap < satAdd
        (satMul (get_free_mint_data u cid).minted asset.amount_per_mint)
        asset.amount_per_mint) = true := by simpa using hover
    simp [mint_free_mint, hnl, hcap, hdec]
  · intro hle
    have hdec : decide (cap < satAdd
        (satMul (get_free_mint_data u cid).minted asset.amount_per_mint)
        asset.amount_per_mint) = false := by simpa using Nat.not_lt.mpr hle
    refine ⟨?_, ?_, ?_, ?_⟩
    · simp [mint_free_mint, hnl, hcap, hdec, hnp]
    · simp only [mint_free_mint, hnl, if_false, hcap, hdec, Bool.false_eq_true, hnp,
        update_asset_list_for_mint, update_asset_contract_data_for_free_mint,
        set_asset_contract_data, set_asset_list, hro]
      simp [outpointBalance, get_asset_list, alGet_alSet_same]
    · simp only [mint_free_mint, hnl, if_false, hcap, hdec, Bool.false_eq_true, hnp,
        update_asset_list_for_mint, update_asset_contract_data_for_free_mint,
        set_asset_contract_data, set_asset_list, hro]
      simp [get_free_mint_data, get_asset_contract_data, alGet_alSet_same]
    · simp only [mint_free_mint, hnl, if_false, hcap, hdec, Bool.false_eq_true, hnp,
        update_asset_list_for_mint, update_asset_contract_data_for_free_mint,
        set_asset_contract_data, set_asset_list, hro]
      simp [get_free_mint_data, get_asset_contract_data, alGet_alSet_same,
        satMul_satAdd_one]

/-- C2 witness: fresh capped contract (`supply_cap = 1000`,
`amount_per_mint = 10`), one mint to pointer 0: no flaw, outpoint credited
10, minted supply 10. -/
theorem mint_free_mint_supply_cap_witness :
    (let u : Updater :=
       { db := default, is_read_only := false,
         unallocated_inputs := default, allocated_outputs := [] }
     let asset : AssetContractFreeMint :=
       { supply_cap := some 1000, amount_per_mint := 10, live_time := 0, end_time := none }
     let tx : Transaction := { txid := "m", input := [], output := [⟨[], 0, none⟩] }
     let r := mint_free_mint u asset tx ⟨5, 0⟩ ⟨1, 1⟩ ⟨0, none⟩
     r.1 = none ∧ outpointBalance r.2 ⟨"m", 0⟩ ⟨1, 1⟩ = 10
       ∧ (get_free_mint_data r.2 ⟨1, 1⟩).minted = 1) := by
  have h := (mint_free_mint_supply_cap
    { db := default, is_read_only := false,
      unallocated_inputs := default, allocated_outputs := [] }
    { supply_cap := some 1000, amount_per_mint := 10, live_time := 0, end_time := none }
    { txid := "m", input := [], output := [⟨[], 0, none⟩] }
    ⟨5, 0⟩ ⟨1, 1⟩ ⟨0, none⟩ 1000 rfl (by decide) (by decide) rfl).2 (by decide)
  refine ⟨h.1, ?_, ?_⟩
  · have := h.2.1
    simpa using this
  · have := h.2.2.1
    simpa using this

/-! ## C7: mint time gating -/

theorem mint_free_mint_not_reached (u : Updater) (asset : AssetContractFreeMint)
    (tx : Transaction) (block_tx cid : BlockTx) (mo : MintOption)
    (h : ¬ block_tx.block < asset.live_time) :
    (mint_free_mint u asset tx block_tx cid mo).1 ≠ some .LiveTimeNotReached := by
  simp only [mint_free_mint, if_neg h]
  split_ifs <;> simp

theorem mint_free_mint_no_expired (u : Updater) (asset : AssetContractFreeMint)
    (tx : Transaction) (block_tx cid : BlockTx) (mo : MintOption) :
    (mint_free_mint u asset tx block_tx cid mo).1 ≠ some .LiveTimeExpired := by
  simp only [mint_free_mint]
  split_ifs <;> simp

theorem pbsOutValue_error_is_oracle (sigOk : List Nat → OracleMessageSigned → Bool)
    (rt : TransferRatioType) (mo : MintOption) (tx : Transaction) (recv : Nat)
    (f : Flaw) (h : pbsOutValue sigOk rt mo tx recv = .error (some f)) :
    f = .OracleMintFailed := by
  unfold pbsOutValue at h
  cases rt with
  | fixed ratio =>
    by_cases hz : ratio.2 = 0 <;> simp [hz] at h
  | oracle pk st =>
    cases hm : mo.oracle_message with
    | none => rw [hm] at h; injection h with h1; injection h1 with h2; exact h2.symm
    | some oms =>
      rw [hm] at h
      by_cases ha : st.asset_id = oms.message.asset_id
      · simp only [ha, if_true] at h
        split_ifs at h with hv
        all_goals try cases h
        all_goals rfl
      · simp only [ha, if_false] at h
        injection h with h1; injection h1 with h2; exact h2.symm

theorem mint_purchase_burn_swap_flaw_cases (sigOk : List Nat → OracleMessageSigned → Bool)
    (u : Updater) (pbs : AssetContractPurchaseBurnSwap) (tx : Transaction)
    (cid : BlockTx) (mo : MintOption) (r : Option Flaw × Updater)
    (h : mint_purchase_burn_swap sigOk u pbs tx cid mo = some r) :
    r.1 = none ∨ r.1 = some .OracleMintFailed ∨ r.1 = some .PointerOverflow := by
  simp only [mint_purchase_burn_swap] at h
  split at h
  · cases h
  · next flaw heq =>
    have hf := pbsOutValue_error_is_oracle _ _ _ _ _ _ heq
    subst hf
    obtain rfl : (some Flaw.OracleMintFailed, u) = r := Option.some.inj h
    simp
  · split at h
    · cases h
    · split_ifs at h
      · obtain rfl : (some Flaw.PointerOverflow, u) = r := Option.some.inj h
        simp
      · next =>
        rw [← Option.some.inj h]
        simp

/-- C7 (amended): the free-mint path fails with `LiveTimeNotReached`
exactly when the block height is below `live_time`; no mint path ever
examines `end_time`, so no mint fails with `LiveTimeExpired`; the
purchase/burn/swap mint applies no time gate at all (it can only report
`OracleMintFailed` or `PointerOverflow`). -/
theorem mint_time_gating (u : Updater) (asset : AssetContractFreeMint)
    (tx : Transaction) (block_tx cid : BlockTx) (mo : MintOption)
    (sigOk : List Nat → OracleMessageSigned → Bool)
    (pbs : AssetContractPurchaseBurnSwap) :
    ((mint_free_mint u asset tx block_tx cid mo).1 = some .LiveTimeNotReached
      ↔ block_tx.block < asset.live_time)
    ∧ (mint_free_mint u asset tx block_tx cid mo).1 ≠ some .LiveTimeExpired
    ∧ (∀ r, mint_purchase_burn_swap sigOk u pbs tx cid mo = some r →
        r.1 ≠ some .LiveTimeExpired ∧ r.1 ≠ some .LiveTimeNotReached) := by
  refine ⟨⟨?_, ?_⟩, mint_free_mint_no_expired u asset tx block_tx cid mo, ?_⟩
  · intro hres
    by_contra hlt
    exact mint_free_mint_not_reached u asset tx block_tx cid mo hlt hres
  · intro hlt
    simp [mint_free_mint, hlt]
  · intro r hr
    rcases mint_purchase_burn_swap_flaw_cases sigOk u pbs tx cid mo r hr with h | h | h
      <;> rw [h] <;> simp

/-- C7 witness: exercising the amended theorem at a live contract inside
its window. -/
theorem mint_time_gating_witness :
    ((mint_free_mint
        { db := default, is_read_only := false,
          unallocated_inputs := default, allocated_outputs := [] }
        { supply_cap := some 1000, amount_per_mint := 10, live_time := 2,
          end_time := some 20 }
        { txid := "m", input := [], output := [⟨[], 0, none⟩] }
        ⟨1, 0⟩ ⟨1, 1⟩ ⟨0, none⟩).1 = some .LiveTimeNotReached) := by
  have h := (mint_time_gating
    { db := default, is_read_only := false,
      unallocated_inputs := default, allocated_outputs := [] }
    { supply_cap := some 1000, amount_per_mint := 10, live_time := 2, end_time := some 20 }
    { txid := "m", input := [], output := [⟨[], 0, none⟩] }
    ⟨1, 0⟩ ⟨1, 1⟩ ⟨0, none⟩ (fun _ _ => false)
    ⟨.rawBtc, .burn, .fixed (1, 1)⟩).1.2
  exact h (by decide)

/-- C7 counterexample: a free mint at block 10 against a contract whose
`end_time` is 5 (so the claim demands `LiveTimeExpired`) succeeds with no
flaw; `end_time` is never consulted. -/
theorem mint_live_time_expired_counterexample :
    (let asset : AssetContractFreeMint :=
       { supply_cap := some 1000, amount_per_mint := 10, live_time := 0,
         end_time := some 5 }
     let r := mint_free_mint
       { db := default, is_read_only := false,
         unallocated_inputs := default, allocated_outputs := [] }
       asset
       { txid := "m", input := [], output := [⟨[], 0, none⟩] }
       ⟨10, 0⟩ ⟨1, 1⟩ ⟨0, none⟩
     asset.end_time = some 5 ∧ (5 : Nat) ≤ 10
       ∧ r.1 ≠ some .LiveTimeExpired ∧ r.1 = none) := by
  refine ⟨rfl, by decide, ?_, ?_⟩ <;> decide

/-! ## C4: pointer validation -/

/-- C4 (amended): the generic `validate_pointer` accepts a pointer p
exactly when p is in range and does not target an OP_RETURN output,
rejecting with `PointerOverflow` respectively `InvalidPointer`; but the
mint paths do not call it: the free mint checks only overflow and accepts
(and credits) OP_RETURN targets, and the purchase/burn/swap mint rejects
only `p > |tx.output|`, accepting `p = |tx.output|` as well as OP_RETURN
targets. -/
theorem pointer_validation_mint_paths (u : Updater) (asset : AssetContractFreeMint)
    (tx : Transaction) (block_tx cid : BlockTx) (mo : MintOption)
    (sigOk : List Nat → OracleMessageSigned → Bool) (addr : String) (num den : Nat)
    (hlive : asset.live_time ≤ block_tx.block)
    (hcap : match asset.supply_cap with
      | some cap => satAdd (satMul (get_free_mint_data u cid).minted asset.amount_per_mint)
          asset.amount_per_mint ≤ cap
      | none => True)
    (hden : den ≠ 0) :
    (∀ (p : Nat) (tx' : Transaction),
      (validate_pointer p tx' = none ↔
        p < tx'.output.length ∧ is_op_return_index (tx'.output.getD p default) = false)
      ∧ (validate_pointer p tx' = some .PointerOverflow ↔ tx'.output.length ≤ p)
      ∧ (validate_pointer p tx' = some .InvalidPointer ↔
          p < tx'.output.length ∧ is_op_return_index (tx'.output.getD p default) = true))
    ∧ (tx.output.length ≤ mo.pointer →
        mint_free_mint u asset tx block_tx cid mo = (some .PointerOverflow, u))
    ∧ (mo.pointer < tx.output.length →
        (mint_free_mint u asset tx block_tx cid mo).1 = none)
    ∧ (tx.output.length < mo.pointer →
        mint_purchase_burn_swap sigOk u
          ⟨.rawBtc, .purchase addr, .fixed (num, den)⟩ tx cid mo
          = some (some .PointerOverflow, u))
    ∧ (mo.pointer ≤ tx.output.length →
        ∃ u', mint_purchase_burn_swap sigOk u
          ⟨.rawBtc, .purchase addr, .fixed (num, den)⟩ tx cid mo = some (none, u')) := by
  have hnl : ¬ block_tx.block < asset.live_time := by omega
  have hcapb : (match asset.supply_cap with
      | some cap => decide (cap < satAdd
          (satMul (get_free_mint_data u cid).minted asset.amount_per_mint)
          asset.amount_per_mint)
      | none => false) = false := by
    cases hs : asset.supply_cap with
    | none => rfl
    | some cap =>
      rw [hs] at hcap
      simpa using Nat.not_lt.mpr hcap
  refine ⟨?_, ?_, ?_, ?_, ?_⟩
  · intro p tx'
    unfold validate_pointer
    by_cases hov : tx'.output.length ≤ p
    · have hnlt : ¬ p < tx'.output.length := by omega
      simp [hov, hnlt]
    · have hlt : p < tx'.output.length := by omega
      by_cases hop : is_op_return_index (tx'.output.getD p default) = true
      · simp [hov, hop, hlt]
      · have hop' : is_op_return_index (tx'.output.getD p default) = false := by
          simpa using hop
        simp [hov, hop', hlt]
  · intro hp
    simp only [mint_free_mint, if_neg hnl]
    rw [hcapb]
    simp [hp]
  · intro hp
    have hp' : ¬ tx.output.length ≤ mo.pointer := by omega
    simp only [mint_free_mint, if_neg hnl]
    rw [hcapb]
    simp [hp']
  · intro hp
    simp only [mint_purchase_burn_swap, pbsOutValue]
    simp [hden, hp]
  · intro hp
    have hp' : ¬ tx.output.length < mo.pointer := by omega
    simp only [mint_purchase_burn_swap, pbsOutValue]
    simp [hden, hp']

/-- C4 witness: applying the amended theorem at a 1-output transaction and
an uncapped live contract, pointer 0. -/
theorem pointer_validation_mint_paths_witness :
    ((mint_free_mint
        { db := default, is_read_only := false,
          unallocated_inputs := default, allocated_outputs := [] }
        { supply_cap := none, amount_per_mint := 7, live_time := 0, end_time := none }
        { txid := "m", input := [], output := [⟨[], 0, none⟩] }
        ⟨1, 0⟩ ⟨1, 1⟩ ⟨0, none⟩).1 = none) := by
  have h := (pointer_validation_mint_paths
    { db := default, is_read_only := false,
      unallocated_inputs := default, allocated_outputs := [] }
    { supply_cap := none, amount_per_mint := 7, live_time := 0, end_time := none }
    { txid := "m", input := [], output := [⟨[], 0, none⟩] }
    ⟨1, 0⟩ ⟨1, 1⟩ ⟨0, none⟩ (fun _ _ => false) "a" 1 1
    (by decide) trivial (by decide)).2.2.1
  exact h (by decide)

/-- C4 counterexample: a free mint whose pointer targets an OP_RETURN
output (rejected by `validate_pointer` as `InvalidPointer`) is accepted
with no flaw and the OP_RETURN outpoint is credited; the claim requires
`InvalidPointer` with no credit. -/
theorem pointer_validation_counterexample :
    (let opret : TxOut := ⟨[.ok (.op OP_RETURN)], 0, none⟩
     let tx : Transaction := { txid := "m", input := [], output := [opret, ⟨[], 0, none⟩] }
     let r := mint_free_mint
       { db := default, is_read_only := false, unallocated_inputs := default,
         allocated_outputs := [] }
       { supply_cap := none, amount_per_mint := 7, live_time := 0, end_time := none }
       tx ⟨1, 0⟩ ⟨1, 1⟩ ⟨0, none⟩
     is_op_return_index (tx.output.getD 0 default) = true
       ∧ validate_pointer 0 tx = some .InvalidPointer
       ∧ r.1 = none
       ∧ outpointBalance r.2 ⟨"m", 0⟩ ⟨1, 1⟩ = 7) := by
  refine ⟨rfl, rfl, by decide, by decide⟩

/-! ## C10: burn against an MOA contract -/

/-- C10: a contract-call of type Burn whose referenced contract was
created as a Mint-Only Asset returns silently from `Updater::burn`: no
flaw is recorded and the updater (bucket, staged outputs and store) is
returned unchanged — not a `ContractNotMatch` flaw. -/
theorem burn_moa_silent_noop (sigOk : List Nat → OracleMessageSigned → Bool)
    (u : Updater) (tx : Transaction) (block_tx cid : BlockTx) (bo : MintBurnOption)
    (m : OpReturnMessage) (cc : ContractCreation) (moa : MintOnlyAssetContract)
    (hcc : m.contract_creation = some cc) (hct : cc.contract_type = .moa moa) :
    burn sigOk u tx block_tx cid bo (.ok m) = some (none, u) := by
  simp [burn, hcc, hct]

/-- C10 witness: a concrete burn call against a concrete MOA creation
message leaves the updater untouched with no flaw. -/
theorem burn_moa_silent_noop_witness :
    (let moa : MintOnlyAssetContract :=
       { ticker := none, supply_cap := some 5, divisibility := 0, live_time := 0,
         end_time := none, mint_mechanism := ⟨none, none, none⟩ }
     let m : OpReturnMessage :=
       { transfer := none, contract_creation := some ⟨.moa moa, none⟩,
         contract_call := none }
     let u : Updater :=
       { db := default, is_read_only := false,
         unallocated_inputs :=
           { (default : Allocation) with asset_list := ⟨[(⟨1, 1⟩, 9)]⟩ },
         allocated_outputs := [] }
     burn (fun _ _ => false) u { txid := "b", input := [], output := [] }
       ⟨2, 0⟩ ⟨1, 1⟩ ⟨none, none, none, none, none⟩ (.ok m) = some (none, u)) := by
  exact burn_moa_silent_noop (fun _ _ => false) _ _ _ _ _ _ _ _ rfl rfl

/-! ## C8: parse/serialize round trip -/

/-- C8: for a valid message (at least one of transfer, contract creation,
contract call present), building the OP_RETURN script with the magic
prefix and the encoded payload and parsing a transaction carrying that
script returns exactly the message, for any codec `enc`/`dec` that is a
partial inverse at the message (the JSON codec is the external serde
collaborator) with a non-empty encoding. -/
theorem parse_serialize_round_trip (enc : OpReturnMessage → List Nat)
    (dec : List Nat → Option OpReturnMessage) (m : OpReturnMessage)
    (txid : String) (ins : List TxIn) (value : Nat) (addr : Option String)
    (hdec : dec (enc m) = some m)
    (henc : enc m ≠ [])
    (hvalid : m.transfer ≠ none ∨ m.contract_creation ≠ none ∨ m.contract_call ≠ none) :
    parse_tx dec
      { txid := txid, input := ins, output := [⟨into_script enc m, value, addr⟩] }
      = .ok m := by
  have hcond : ¬ (m.contract_call = none ∧ m.contract_creation = none
      ∧ m.transfer = none) := by
    rcases hvalid with h | h | h <;> intro hc <;>
      [exact h hc.2.2; exact h hc.2.1; exact h hc.1]
  simp only [parse_tx, findPayload, into_script, scriptCarrier]
  simp [collectPayload, henc, hdec, hcond]

/-- C8 witness: the round trip applied with a transfer-only message and a
concrete one-payload codec. -/
theorem parse_serialize_round_trip_witness :
    (let m : OpReturnMessage := ⟨some ⟨[⟨⟨1, 1⟩, 0, 3⟩]⟩, none, none⟩
     parse_tx (fun _ => some m)
       { txid := "s", input := [],
         output := [⟨into_script (fun _ => [1]) m, 0, none⟩] } = .ok m) := by
  exact parse_serialize_round_trip (fun _ => [1])
    (fun _ => some ⟨some ⟨[⟨⟨1, 1⟩, 0, 3⟩]⟩, none, none⟩)
    ⟨some ⟨[⟨⟨1, 1⟩, 0, 3⟩]⟩, none, none⟩ "s" [] 0 none rfl (by decide)
    (Or.inl (by decide))

/-! ## C5: saturating arithmetic / truncation -/

/-- C5: evaluating `mint_purchase_burn_swap` at the failing input — a
burn-scheme purchase of `2^32` sats at a fixed 1:1 ratio.  The computed
`out_value` is `2^32`, but the source credits `out_value as u32`
(`out_value % 2^32 = 0`): the outpoint record is written with amount 0,
silently truncating a U128 amount to 32 bits, contradicting the claim
that no balance arithmetic is wrapped or truncated. -/
theorem pbs_truncation_failing_input :
    (let opret : TxOut := ⟨[.ok (.op OP_RETURN)], 2 ^ 32, none⟩
     let tx : Transaction := { txid := "p", input := [], output := [⟨[], 0, none⟩, opret] }
     let u : Updater :=
       { db := default, is_read_only := false, unallocated_inputs := default,
         allocated_outputs := [] }
     let r := mint_purchase_burn_swap (fun _ _ => false) u
       ⟨.rawBtc, .burn, .fixed (1, 1)⟩ tx ⟨1, 1⟩ ⟨0, none⟩
     (2 ^ 32 * 1) % 2 ^ 128 / 1 = 2 ^ 32
       ∧ 2 ^ 32 % 2 ^ 32 = 0
       ∧ r.map (fun p => (p.1, alGet p.2.db.asset_list ⟨"p", 0⟩))
           = some (none, some ⟨[(⟨1, 1⟩, 0)]⟩)) := by
  refine ⟨by decide, by decide, by decide⟩

/-! ## C6: burn against a proportional pool -/

theorem allocatedAmount_allocate_same (u : Updater) (v : Nat) (k : BlockTx) (amt : Nat) :
    allocatedAmount (allocate_new_asset u v k amt) v k
      = satAdd (allocatedAmount u v k) amt := by
  unfold allocatedAmount allocate_new_asset
  simp [alGet_alSet_same]

theorem allocatedAmount_allocate_ne (u : Updater) (v : Nat) (k k' : BlockTx) (amt : Nat)
    (h : k' ≠ k) :
    allocatedAmount (allocate_new_asset u v k amt) v k' = allocatedAmount u v k' := by
  unfold allocatedAmount allocate_new_asset
  simp [alGet_alSet_same, alGet_alSet_other _ _ _ _ h]

theorem allocatedAmount_set_acd (u : Updater) (cid : BlockTx) (d : AssetContractData)
    (v : Nat) (k : BlockTx) :
    allocatedAmount (set_asset_contract_data u cid d) v k = allocatedAmount u v k := by
  unfold set_asset_contract_data
  split <;> rfl

/-- State after the pool write of the proportional burn branch. -/
def poolWrite (u : Updater) (cid : BlockTx) (pd' : CollateralizedAssetData) : Updater :=
  { u with db := { u.db with pool_data := alSet u.db.pool_data cid pd' } }

theorem burnProportionalBranch_err (u : Updater) (c : Collateralized) (cid : BlockTx)
    (b : Nat) (pd : CollateralizedAssetData) (x0 x1 : Nat) (a0 a1 : BlockTx)
    (hassets : c.input_assets = [.glittrAsset a0, .glittrAsset a1])
    (hpool : alGet u.db.pool_data cid = some pd)
    (hts : 0 < pd.total_supply)
    (ha0 : alGet pd.amounts a0 = some x0)
    (ha1 : alGet pd.amounts a1 = some x1)
    (hov1 : b * 1000000 ≤ U128MAX)
    (hov2 : x0 * (b * 1000000 / pd.total_supply) ≤ U128MAX)
    (hov3 : x1 * (b * 1000000 / pd.total_supply) ≤ U128MAX)
    (hz : x0 * (b * 1000000 / pd.total_supply) / 1000000 = 0
        ∨ x1 * (b * 1000000 / pd.total_supply) / 1000000 = 0) :
    burnProportionalBranch u c cid b = some (.error .InsufficientOutputAmount) := by
  have hts' : ¬ pd.total_supply = 0 := by omega
  simp only [burnProportionalBranch, hassets]
  rw [satMul_exact b 1000000 hov1]
  simp only [List.get?, hpool, ha0, ha1, hts', if_false]
  rw [satMul_exact x0 _ hov2, satMul_exact x1 _ hov3]
  simp [hz]

theorem burnProportionalBranch_ok (u : Updater) (c : Collateralized) (cid : BlockTx)
    (b : Nat) (pd : CollateralizedAssetData) (x0 x1 : Nat) (a0 a1 : BlockTx)
    (hassets : c.input_assets = [.glittrAsset a0, .glittrAsset a1])
    (hpool : alGet u.db.pool_data cid = some pd)
    (hts : 0 < pd.total_supply)
    (ha0 : alGet pd.amounts a0 = some x0)
    (ha1 : alGet pd.amounts a1 = some x1)
    (hro : u.is_read_only = false)
    (hov1 : b * 1000000 ≤ U128MAX)
    (hov2 : x0 * (b * 1000000 / pd.total_supply) ≤ U128MAX)
    (hov3 : x1 * (b * 1000000 / pd.total_supply) ≤ U128MAX)
    (h0 : 0 < x0 * (b * 1000000 / pd.total_supply) / 1000000)
    (h1 : 0 < x1 * (b * 1000000 / pd.total_supply) / 1000000) :
    burnProportionalBranch u c cid b = some (.ok
      ([x0 * (b * 1000000 / pd.total_supply) / 1000000,
        x1 * (b * 1000000 / pd.total_supply) / 1000000],
       poolWrite u cid
         ⟨alSet (alSet pd.amounts a0
             (x0 - x0 * (b * 1000000 / pd.total_supply) / 1000000)) a1
             (x1 - x1 * (b * 1000000 / pd.total_supply) / 1000000),
           pd.total_supply - b⟩)) := by
  have hts' : ¬ pd.total_supply = 0 := by omega
  have hnz : ¬ (x0 * (b * 1000000 / pd.total_supply) / 1000000 = 0
      ∨ x1 * (b * 1000000 / pd.total_supply) / 1000000 = 0) := by omega
  simp only [burnProportionalBranch, hassets]
  rw [satMul_exact b 1000000 hov1]
  simp only [List.get?, hpool, ha0, ha1, hts', if_false]
  rw [satMul_exact x0 _ hov2, satMul_exact x1 _ hov3]
  simp [hnz, hro, poolWrite]

theorem burnTail_two_glittr (u : Updater) (c : Collateralized) (out0 out1 : Nat)
    (a0 a1 : BlockTx) (bo : MintBurnOption) (tx : Transaction) (cid : BlockTx)
    (b p : Nat)
    (hassets : c.input_assets = [.glittrAsset a0, .glittrAsset a1])
    (hptr : bo.pointer = some p)
    (hvp : validate_pointer p tx = none)
    (hne : a0 ≠ a1) :
    ∃ u', burnTail u c [out0, out1] bo tx cid b = some (none, u')
      ∧ allocatedAmount u' p a0 = satAdd (allocatedAmount u p a0) out0
      ∧ allocatedAmount u' p a1 = satAdd (allocatedAmount u p a1) out1
      ∧ u'.db.pool_data = u.db.pool_data
      ∧ u'.unallocated_inputs = u.unallocated_inputs := by
  refine ⟨allocate_new_asset
      (allocate_new_asset (validate_and_update_supply_cap u cid b).2 p a0 out0)
      p a1 out1, ?_, ?_, ?_, ?_, ?_⟩
  · simp only [burnTail, validate_and_update_supply_cap, hptr, hvp]
    simp [burnAllocateReturns, hassets]
  · rw [allocatedAmount_allocate_ne _ _ _ _ _ hne,
      allocatedAmount_allocate_same]
    unfold validate_and_update_supply_cap update_asset_contract_data_for_free_mint
    rw [allocatedAmount_set_acd]
  · rw [allocatedAmount_allocate_same]
    rw [allocatedAmount_allocate_ne _ _ _ _ _ (Ne.symm hne)]
    unfold validate_and_update_supply_cap update_asset_contract_data_for_free_mint
    rw [allocatedAmount_set_acd]
  · show (validate_and_update_supply_cap u cid b).2.db.pool_data = u.db.pool_data
    unfold validate_and_update_supply_cap update_asset_contract_data_for_free_mint
      set_asset_contract_data
    split <;> rfl
  · show (validate_and_update_supply_cap u cid b).2.unallocated_inputs
      = u.unallocated_inputs
    unfold validate_and_update_supply_cap update_asset_contract_data_for_free_mint
      set_asset_contract_data
    split <;> rfl

/-- C6: burning b against a proportional pool (ConstantProduct or
ConstantSum — the source duplicates the same code in both arms) with
positive stored `total_supply` computes `share = b * 1e6 / total_supply`
and `return_i = amounts_i * share / 1e6`; if either return is zero the
burn fails with `InsufficientOutputAmount` and the store (pool included)
is unchanged; otherwise the pool amounts drop by the returns,
`total_supply` drops by b, and both returns are credited to the output
designated by the pointer. -/
theorem burn_proportional_pool (sigOk : List Nat → OracleMessageSigned → Bool)
    (u : Updater) (mba : MintBurnAssetContract) (rc : ReturnCollateral)
    (tx : Transaction) (block_tx cid : BlockTx) (bo : MintBurnOption)
    (c : Collateralized) (pt : ProportionalType) (pd : CollateralizedAssetData)
    (a0 a1 : BlockTx) (x0 x1 b p : Nat)
    (hro : u.is_read_only = false)
    (hmech : mba.mint_mechanism.collateralized = some c)
    (hstruct : c.mint_structure = .proportional pt)
    (hassets : c.input_assets = [.glittrAsset a0, .glittrAsset a1])
    (hne : a0 ≠ a1)
    (hpool : alGet u.db.pool_data cid = some pd)
    (hts : 0 < pd.total_supply)
    (ha0 : alGet pd.amounts a0 = some x0)
    (ha1 : alGet pd.amounts a1 = some x1)
    (hbal : alGet u.unallocated_inputs.asset_list.list cid = some b)
    (hb : 0 < b)
    (hptr : bo.pointer = some p)
    (hvp : validate_pointer p tx = none)
    (hov1 : b * 1000000 ≤ U128MAX)
    (hov2 : x0 * (b * 1000000 / pd.total_supply) ≤ U128MAX)
    (hov3 : x1 * (b * 1000000 / pd.total_supply) ≤ U128MAX) :
    (x0 * (b * 1000000 / pd.total_supply) / 1000000 = 0
        ∨ x1 * (b * 1000000 / pd.total_supply) / 1000000 = 0 →
      ∃ u', burn_return_collateral sigOk u mba rc tx block_tx cid bo
          = some (some .InsufficientOutputAmount, u')
        ∧ u'.db = u.db)
    ∧ (0 < x0 * (b * 1000000 / pd.total_supply) / 1000000 →
       0 < x1 * (b * 1000000 / pd.total_supply) / 1000000 →
      ∃ u', burn_return_collateral sigOk u mba rc tx block_tx cid bo
          = some (none, u')
        ∧ alGet u'.db.pool_data cid = some
            ⟨alSet (alSet pd.amounts a0
                (x0 - x0 * (b * 1000000 / pd.total_supply) / 1000000)) a1
                (x1 - x1 * (b * 1000000 / pd.total_supply) / 1000000),
              pd.total_supply - b⟩
        ∧ allocatedAmount u' p a0
            = satAdd (allocatedAmount u p a0)
                (x0 * (b * 1000000 / pd.total_supply) / 1000000)
        ∧ allocatedAmount u' p a1
            = satAdd (allocatedAmount u p a1)
                (x1 * (b * 1000000 / pd.total_supply) / 1000000)
        ∧ unallocatedAmount u' cid = 0) := by
  have hb0 : ¬ b = 0 := by omega
  constructor
  · intro hz
    have hbranch := burnProportionalBranch_err
      { u with unallocated_inputs := { u.unallocated_inputs with
          asset_list := ⟨alErase u.unallocated_inputs.asset_list.list cid⟩ } }
      c cid b pd x0 x1 a0 a1 hassets hpool hts ha0 ha1 hov1 hov2 hov3 hz
    refine ⟨{ u with unallocated_inputs := { u.unallocated_inputs with
        asset_list := ⟨alErase u.unallocated_inputs.asset_list.list cid⟩ } }, ?_, rfl⟩
    simp only [burn_return_collateral, hbal, Option.getD_some, hb0, if_false, hmech,
      hstruct]
    rw [hbranch]
  · intro h0 h1
    have hbranch := burnProportionalBranch_ok
      { u with unallocated_inputs := { u.unallocated_inputs with
          asset_list := ⟨alErase u.unallocated_inputs.asset_list.list cid⟩ } }
      c cid b pd x0 x1 a0 a1 hassets hpool hts ha0 ha1 hro hov1 hov2 hov3 h0 h1
    obtain ⟨u', hres, hA0, hA1, hpd, hun⟩ := burnTail_two_glittr
      (poolWrite
        { u with unallocated_inputs := { u.unallocated_inputs with
            asset_list := ⟨alErase u.unallocated_inputs.asset_list.list cid⟩ } }
        cid
        ⟨alSet (alSet pd.amounts a0
            (x0 - x0 * (b * 1000000 / pd.total_supply) / 1000000)) a1
            (x1 - x1 * (b * 1000000 / pd.total_supply) / 1000000),
          pd.total_supply - b⟩)
      c (x0 * (b * 1000000 / pd.total_supply) / 1000000)
      (x1 * (b * 1000000 / pd.total_supply) / 1000000)
      a0 a1 bo tx cid b p hassets hptr hvp hne
    refine ⟨u', ?_, ?_, ?_, ?_, ?_⟩
    · simp only [burn_return_collateral, hbal, Option.getD_some, hb0, if_false, hmech,
        hstruct]
      rw [hbranch]
      exact hres
    · rw [hpd]
      simp [poolWrite, alGet_alSet_same]
    · simpa [poolWrite, allocatedAmount] using hA0
    · simpa [poolWrite, allocatedAmount] using hA1
    · unfold unallocatedAmount
      rw [hun]
      simp [poolWrite, alGet_alErase]

/-- C6 witness: the spec's scenario 5 — pool {A: 1000, B: 1000},
total_supply 1000, burn 100 with pointer 0: returns {A: 100, B: 100},
pool becomes {A: 900, B: 900}, total_supply 900. -/
theorem burn_proportional_pool_witness :
    (let A : BlockTx := ⟨1, 1⟩
     let B : BlockTx := ⟨1, 2⟩
     let LP : BlockTx := ⟨2, 1⟩
     let c : Collateralized :=
       ⟨[.glittrAsset A, .glittrAsset B], .proportional ⟨.constantProduct⟩⟩
     let mba : MintBurnAssetContract :=
       { ticker := none, supply_cap := none, divisibility := 0, live_time := 0,
         end_time := none, mint_mechanism := ⟨some c⟩,
         burn_mechanism := ⟨some ⟨none⟩⟩ }
     let u : Updater :=
       { db := { (default : Db) with
           pool_data := [(LP, ⟨[(A, 1000), (B, 1000)], 1000⟩)] },
         is_read_only := false,
         unallocated_inputs :=
           { (default : Allocation) with asset_list := ⟨[(LP, 100)]⟩ },
         allocated_outputs := [] }
     let tx : Transaction := { txid := "w", input := [], output := [⟨[], 0, none⟩] }
     ∃ u', burn_return_collateral (fun _ _ => false) u mba ⟨none⟩ tx ⟨3, 0⟩ LP
         ⟨some 0, none, none, none, none⟩ = some (none, u')
       ∧ alGet u'.db.pool_data LP = some ⟨alSet (alSet [(A, 1000), (B, 1000)] A 900) B 900, 900⟩
       ∧ allocatedAmount u' 0 A = 100 ∧ allocatedAmount u' 0 B = 100
       ∧ unallocatedAmount u' LP = 0) := by
  obtain ⟨u', hres, hpd, hA, hB, hun⟩ :=
    ((burn_proportional_pool (fun _ _ => false)
      { db := { (default : Db) with
          pool_data := [(⟨2, 1⟩, ⟨[(⟨1, 1⟩, 1000), (⟨1, 2⟩, 1000)], 1000⟩)] },
        is_read_only := false,
        unallocated_inputs :=
          { (default : Allocation) with asset_list := ⟨[(⟨2, 1⟩, 100)]⟩ },
        allocated_outputs := [] }
      { ticker := none, supply_cap := none, divisibility := 0, live_time := 0,
        end_time := none,
        mint_mechanism := ⟨some ⟨[.glittrAsset ⟨1, 1⟩, .glittrAsset ⟨1, 2⟩],
          .proportional ⟨.constantProduct⟩⟩⟩,
        burn_mechanism := ⟨some ⟨none⟩⟩ }
      ⟨none⟩ { txid := "w", input := [], output := [⟨[], 0, none⟩] }
      ⟨3, 0⟩ ⟨2, 1⟩ ⟨some 0, none, none, none, none⟩
      ⟨[.glittrAsset ⟨1, 1⟩, .glittrAsset ⟨1, 2⟩], .proportional ⟨.constantProduct⟩⟩
      ⟨.constantProduct⟩ ⟨[(⟨1, 1⟩, 1000), (⟨1, 2⟩, 1000)], 1000⟩
      ⟨1, 1⟩ ⟨1, 2⟩ 1000 1000 100 0
      rfl rfl rfl rfl (by decide) rfl (by decide) rfl rfl rfl (by decide) rfl rfl
      (by decide) (by decide) (by decide)).2 (by decide) (by decide))
  exact ⟨u', hres, by simpa using hpd, by simpa using hA, by simpa using hB, hun⟩

/-! ## C9: commit_outputs — fallback and persistence -/

theorem keys_alSet {κ α : Type} [DecidableEq κ] (l : List (κ × α)) (k : κ) (v : α) :
    (alSet l k v).map Prod.fst = k :: (alErase l k).map Prod.fst := rfl

theorem not_mem_keys_alErase {κ α : Type} [DecidableEq κ] (l : List (κ × α)) (k : κ) :
    k ∉ (alErase l k).map Prod.fst := by
  induction l with
  | nil => simp [alErase]
  | cons p rest ih =>
    by_cases h : p.1 = k
    · simpa [alErase, h] using ih
    · simp only [alErase, h, if_false, List.map_cons, List.mem_cons]
      rintro (h1 | h1)
      · exact h h1.symm
      · exact ih h1

theorem mem_keys_alErase {κ α : Type} [DecidableEq κ] (l : List (κ × α)) (k k' : κ)
    (hmem : k' ∈ l.map Prod.fst) (hne : k' ≠ k) :
    k' ∈ (alErase l k).map Prod.fst := by
  induction l with
  | nil => simp at hmem
  | cons p rest ih =>
    simp only [List.map_cons, List.mem_cons] at hmem
    by_cases h : p.1 = k
    · rcases hmem with h1 | h1
      · exact absurd (h1.trans h) hne
      · simpa [alErase, h] using ih h1
    · simp only [alErase, h, if_false, List.map_cons, List.mem_cons]
      rcases hmem with h1 | h1
      · exact Or.inl h1
      · exact Or.inr (ih h1)

theorem alErase_sublist {κ α : Type} [DecidableEq κ] (l : List (κ × α)) (k : κ) :
    List.Sublist (alErase l k) l := by
  induction l with
  | nil => simp [alErase]
  | cons p rest ih =>
    by_cases h : p.1 = k
    · simp only [alErase, h, if_true]
      exact ih.cons _
    · simp only [alErase, h, if_false]
      exact ih.cons₂ _

theorem nodup_keys_alErase {κ α : Type} [DecidableEq κ] (l : List (κ × α)) (k : κ)
    (h : (l.map Prod.fst).Nodup) : ((alErase l k).map Prod.fst).Nodup :=
  List.Nodup.sublist ((alErase_sublist l k).map Prod.fst) h

theorem nodup_keys_alSet {κ α : Type} [DecidableEq κ] (l : List (κ × α)) (k : κ) (v : α)
    (h : (l.map Prod.fst).Nodup) : ((alSet l k v).map Prod.fst).Nodup := by
  rw [keys_alSet]
  exact List.nodup_cons.mpr ⟨not_mem_keys_alErase l k, nodup_keys_alErase l k h⟩

theorem mem_keys_alSet_self {κ α : Type} [DecidableEq κ] (l : List (κ × α)) (k : κ)
    (v : α) : k ∈ (alSet l k v).map Prod.fst := by
  rw [keys_alSet]; exact List.mem_cons_self _ _

theorem mem_keys_alSet_of_mem {κ α : Type} [DecidableEq κ] (l : List (κ × α))
    (k k' : κ) (v : α) (h : k' ∈ l.map Prod.fst) :
    k' ∈ (alSet l k v).map Prod.fst := by
  rw [keys_alSet]
  by_cases he : k' = k
  · exact he ▸ List.mem_cons_self _ _
  · exact List.mem_cons_of_mem _ (mem_keys_alErase l k k' h he)

/-- An exact-balance move: when the unallocated bucket holds exactly `a`
of the asset, the move erases the bucket entry and stages the full
amount. -/
theorem move_exact (u : Updater) (v : Nat) (k : BlockTx) (a : Nat)
    (hbal : alGet u.unallocated_inputs.asset_list.list k = some a) (ha : 0 < a) :
    move_asset_allocation u v k a = allocate_new_asset
      { u with unallocated_inputs := { u.unallocated_inputs with
          asset_list := ⟨alErase u.unallocated_inputs.asset_list.list k⟩ } } v k a := by
  unfold move_asset_allocation
  simp [hbal, Nat.min_self, ha.ne']

/-- The fallback move loop of `commit_outputs`: folding
`move_asset_allocation` over a snapshot of the unallocated bucket (with
distinct keys, each entry matching the live bucket with a positive
balance) credits every entry in full to the target output, leaves the
store untouched and keeps the staged-output bookkeeping sound. -/
theorem moveFold_spec (v : Nat) :
    ∀ (L : List (BlockTx × Nat)) (u : Updater),
    (L.map Prod.fst).Nodup →
    (∀ kv ∈ L, alGet u.unallocated_inputs.asset_list.list kv.1 = some kv.2 ∧ 0 < kv.2) →
    (∀ kv ∈ L,
      allocatedAmount
        (L.foldl (fun acc kv' => move_asset_allocation acc v kv'.1 kv'.2) u) v kv.1
      = satAdd (allocatedAmount u v kv.1) kv.2)
    ∧ (∀ k, k ∉ L.map Prod.fst →
        allocatedAmount
          (L.foldl (fun acc kv' => move_asset_allocation acc v kv'.1 kv'.2) u) v k
        = allocatedAmount u v k)
    ∧ (L.foldl (fun acc kv' => move_asset_allocation acc v kv'.1 kv'.2) u).db = u.db
    ∧ (L.foldl (fun acc kv' => move_asset_allocation acc v kv'.1 kv'.2) u).is_read_only
        = u.is_read_only
    ∧ ((u.allocated_outputs.map Prod.fst).Nodup →
        (((L.foldl (fun acc kv' => move_asset_allocation acc v kv'.1 kv'.2)
            u).allocated_outputs).map Prod.fst).Nodup)
    ∧ (v ∈ u.allocated_outputs.map Prod.fst →
        v ∈ ((L.foldl (fun acc kv' => move_asset_allocation acc v kv'.1 kv'.2)
            u).allocated_outputs).map Prod.fst)
    ∧ (L ≠ [] →
        v ∈ ((L.foldl (fun acc kv' => move_asset_allocation acc v kv'.1 kv'.2)
            u).allocated_outputs).map Prod.fst) := by
  intro L
  induction L with
  | nil =>
    intro u _ _
    refine ⟨by simp, by simp, rfl, rfl, fun h => h, fun h => h, by simp⟩
  | cons kv R ih =>
    intro u hnd hent
    have hk : alGet u.unallocated_inputs.asset_list.list kv.1 = some kv.2 :=
      (hent kv (List.mem_cons_self _ _)).1
    have hkpos : 0 < kv.2 := (hent kv (List.mem_cons_self _ _)).2
    have hmv := move_exact u v kv.1 kv.2 hk hkpos
    have hnd' : (kv.1 :: R.map Prod.fst).Nodup := by simpa using hnd
    have hknotR : kv.1 ∉ R.map Prod.fst := (List.nodup_cons.mp hnd').1
    have hndR : (R.map Prod.fst).Nodup := (List.nodup_cons.mp hnd').2
    have hentR : ∀ kv' ∈ R,
        alGet (move_asset_allocation u v kv.1 kv.2).unallocated_inputs.asset_list.list
          kv'.1 = some kv'.2 ∧ 0 < kv'.2 := by
      intro kv' hm
      have hne : kv'.1 ≠ kv.1 := by
        intro hc
        exact hknotR (hc ▸ List.mem_map_of_mem Prod.fst hm)
      rw [hmv]
      constructor
      · show alGet (alErase u.unallocated_inputs.asset_list.list kv.1) kv'.1 = some kv'.2
        rw [alGet_alErase]
        simp [hne, (hent kv' (List.mem_cons_of_mem _ hm)).1]
      · exact (hent kv' (List.mem_cons_of_mem _ hm)).2
    obtain ⟨ih1, ih2, ih3, ih4, ih5, ih6, ih7⟩ :=
      ih (move_asset_allocation u v kv.1 kv.2) hndR hentR
    have hallocSame : allocatedAmount (move_asset_allocation u v kv.1 kv.2) v kv.1
        = satAdd (allocatedAmount u v kv.1) kv.2 := by
      rw [hmv, allocatedAmount_allocate_same]
      rfl
    have hallocNe : ∀ k, k ≠ kv.1 →
        allocatedAmount (move_asset_allocation u v kv.1 kv.2) v k
          = allocatedAmount u v k := by
      intro k hne
      rw [hmv, allocatedAmount_allocate_ne _ _ _ _ _ hne]
      rfl
    have hmemv : v ∈ (move_asset_allocation u v kv.1 kv.2).allocated_outputs.map
        Prod.fst := by
      rw [hmv]
      exact mem_keys_alSet_self _ _ _
    refine ⟨?_, ?_, ?_, ?_, ?_, ?_, ?_⟩
    · intro kv' hm
      rcases List.mem_cons.mp hm with he | hm'
      · rw [he]
        simp only [List.foldl_cons]
        rw [ih2 kv.1 hknotR, hallocSame]
      · simp only [List.foldl_cons]
        have hne : kv'.1 ≠ kv.1 := by
          intro hc
          exact hknotR (hc ▸ List.mem_map_of_mem Prod.fst hm')
        rw [ih1 kv' hm', hallocNe kv'.1 hne]
    · intro k hkn
      simp only [List.map_cons, List.mem_cons, not_or] at hkn
      simp only [List.foldl_cons]
      rw [ih2 k hkn.2, hallocNe k hkn.1]
    · simp only [List.foldl_cons]
      rw [ih3, hmv]
      rfl
    · simp only [List.foldl_cons]
      rw [ih4, hmv]
      rfl
    · intro hnda
      simp only [List.foldl_cons]
      apply ih5
      rw [hmv]
      exact nodup_keys_alSet _ _ _ hnda
    · intro _
      simp only [List.foldl_cons]
      exact ih6 hmemv
    · intro _
      simp only [List.foldl_cons]
      exact ih6 hmemv

theorem alGet_of_mem_nodup {κ α : Type} [DecidableEq κ] (l : List (κ × α)) (k : κ)
    (a : α) (hnd : (l.map Prod.fst).Nodup) (hm : (k, a) ∈ l) : alGet l k = some a := by
  induction l with
  | nil => cases hm
  | cons p rest ih =>
    have hnd' : p.1 ∉ rest.map Prod.fst ∧ (rest.map Prod.fst).Nodup := by
      simpa [List.nodup_cons] using hnd
    rcases List.mem_cons.mp hm with he | hm'
    · rw [← he]
      simp [alGet]
    · have hk : k ∈ rest.map Prod.fst := by
        simpa using List.mem_map_of_mem Prod.fst hm'
      have hne : ¬ p.1 = k := fun hc => hnd'.1 (hc ▸ hk)
      simp only [alGet, hne, if_false]
      exact ih hnd'.2 hm'

theorem alGet_isSome_of_mem_keys {κ α : Type} [DecidableEq κ] (l : List (κ × α))
    (k : κ) (hm : k ∈ l.map Prod.fst) : ∃ x, alGet l k = some x := by
  induction l with
  | nil => simp at hm
  | cons p rest ih =>
    by_cases h : p.1 = k
    · exact ⟨p.2, by simp [alGet, h]⟩
    · rw [List.map_cons] at hm
      have : k ∈ rest.map Prod.fst := by
        rcases List.mem_cons.mp hm with he | hm'
        · exact absurd he.symm h
        · exact hm'
      obtain ⟨x, hx⟩ := ih this
      exact ⟨x, by simp [alGet, h, hx]⟩

theorem allocate_new_spec_allocatedAmount (u : Updater) (v0 : Nat) (sid : BlockTx)
    (v : Nat) (k : BlockTx) :
    allocatedAmount (allocate_new_spec u v0 sid) v k = allocatedAmount u v k := by
  unfold allocatedAmount allocate_new_spec
  by_cases h : v = v0
  · subst h
    simp [alGet_alSet_same]
  · simp [alGet_alSet_other _ _ _ _ h]

theorem specFold_allocatedAmount (S : List BlockTx) (v0 : Nat) :
    ∀ (u : Updater) (v : Nat) (k : BlockTx),
    allocatedAmount (S.foldl (fun acc sid => allocate_new_spec acc v0 sid) u) v k
      = allocatedAmount u v k := by
  induction S with
  | nil => intro u v k; rfl
  | cons s S' ih =>
    intro u v k
    simp only [List.foldl_cons]
    rw [ih, allocate_new_spec_allocatedAmount]

theorem specFold_db (S : List BlockTx) (v0 : Nat) :
    ∀ (u : Updater),
    (S.foldl (fun acc sid => allocate_new_spec acc v0 sid) u).db = u.db := by
  induction S with
  | nil => intro u; rfl
  | cons s S' ih =>
    intro u
    simp only [List.foldl_cons]
    rw [ih]
    rfl

theorem specFold_ro (S : List BlockTx) (v0 : Nat) :
    ∀ (u : Updater),
    (S.foldl (fun acc sid => allocate_new_spec acc v0 sid) u).is_read_only
      = u.is_read_only := by
  induction S with
  | nil => intro u; rfl
  | cons s S' ih =>
    intro u
    simp only [List.foldl_cons]
    rw [ih]
    rfl

theorem specFold_nodup (S : List BlockTx) (v0 : Nat) :
    ∀ (u : Updater), ((u.allocated_outputs.map Prod.fst).Nodup) →
    (((S.foldl (fun acc sid => allocate_new_spec acc v0 sid) u).allocated_outputs).map
      Prod.fst).Nodup := by
  induction S with
  | nil => intro u h; exact h
  | cons s S' ih =>
    intro u h
    simp only [List.foldl_cons]
    exact ih _ (nodup_keys_alSet _ _ _ h)

theorem specFold_mem (S : List BlockTx) (v0 : Nat) :
    ∀ (u : Updater) (v : Nat), v ∈ u.allocated_outputs.map Prod.fst →
    v ∈ ((S.foldl (fun acc sid => allocate_new_spec acc v0 sid) u).allocated_outputs).map
      Prod.fst := by
  induction S with
  | nil => intro u v h; exact h
  | cons s S' ih =>
    intro u v h
    simp only [List.foldl_cons]
    exact ih _ v (mem_keys_alSet_of_mem _ _ _ _ h)

theorem persistFold_notmem (txid : String) (l : List (Nat × Allocation)) :
    ∀ (d : Db) (v : Nat), v ∉ l.map Prod.fst →
    alGet (l.foldl (persistAllocation false txid) d).asset_list ⟨txid, v⟩
      = alGet d.asset_list ⟨txid, v⟩ := by
  induction l with
  | nil => intro d v _; rfl
  | cons p rest ih =>
    intro d v hv
    simp only [List.map_cons, List.mem_cons, not_or] at hv
    simp only [List.foldl_cons]
    rw [ih _ v hv.2]
    show alGet (alSet d.asset_list ⟨txid, p.1⟩ p.2.asset_list) ⟨txid, v⟩
      = alGet d.asset_list ⟨txid, v⟩
    exact alGet_alSet_other d.asset_list ⟨txid, p.1⟩ ⟨txid, v⟩ p.2.asset_list
      (fun hc => hv.1 (congrArg Outpoint.vout hc))

theorem persistFold_mem (txid : String) (l : List (Nat × Allocation)) :
    ∀ (d : Db) (v : Nat) (al : Allocation),
    (l.map Prod.fst).Nodup → alGet l v = some al →
    alGet (l.foldl (persistAllocation false txid) d).asset_list ⟨txid, v⟩
      = some al.asset_list := by
  induction l with
  | nil => intro d v al _ h; cases h
  | cons p rest ih =>
    intro d v al hnd hget
    have hnd' : p.1 ∉ rest.map Prod.fst ∧ (rest.map Prod.fst).Nodup := by
      simpa [List.nodup_cons] using hnd
    simp only [List.foldl_cons]
    by_cases h : p.1 = v
    · subst h
      have hal : al = p.2 := by
        simp only [alGet, if_true] at hget
        exact (Option.some.inj hget).symm
      subst hal
      rw [persistFold_notmem txid rest _ p.1 hnd'.1]
      show alGet (alSet d.asset_list ⟨txid, p.1⟩ p.2.asset_list) ⟨txid, p.1⟩
        = some p.2.asset_list
      exact alGet_alSet_same _ _ _
    · have hget' : alGet rest v = some al := by
        simpa [alGet, h] using hget
      exact ih _ v al hnd'.2 hget'

/-- The state of `commit_outputs` after the fallback moves and spec
allocations, before the persist loop. -/
def commitStage1 (u : Updater) (_tx : Transaction) (v : Nat) : Updater :=
  u.unallocated_inputs.spec_owned.specs.foldl
    (fun acc sid => allocate_new_spec acc v sid)
    (u.unallocated_inputs.asset_list.list.foldl
      (fun (acc : Updater) (kv : BlockTx × Nat) =>
        move_asset_allocation acc v kv.1 kv.2) u)

theorem commit_outputs_some_eq (u : Updater) (tx : Transaction) (v : Nat)
    (hv : first_non_op_return_index tx = some v) :
    commit_outputs u tx =
      { commitStage1 u tx v with
        db := (commitStage1 u tx v).allocated_outputs.foldl
          (persistAllocation (commitStage1 u tx v).is_read_only tx.txid)
          (commitStage1 u tx v).db,
        unallocated_inputs := default, allocated_outputs := [] } := by
  simp only [commit_outputs, hv, commitStage1]

theorem persisted_balance_of (u1 : Updater) (txid : String) (v : Nat) (k : BlockTx)
    (hro1 : u1.is_read_only = false)
    (hnd1 : (u1.allocated_outputs.map Prod.fst).Nodup)
    (hmem : v ∈ u1.allocated_outputs.map Prod.fst) :
    outpointBalance
      { u1 with
        db := u1.allocated_outputs.foldl
          (persistAllocation u1.is_read_only txid) u1.db,
        unallocated_inputs := default, allocated_outputs := [] }
      ⟨txid, v⟩ k = allocatedAmount u1 v k := by
  obtain ⟨alv, halv⟩ := alGet_isSome_of_mem_keys _ v hmem
  unfold outpointBalance get_asset_list
  rw [hro1]
  simp only
  rw [persistFold_mem txid _ _ v alv hnd1 halv]
  simp [allocatedAmount, halv]

/-- C9: at commit time, when the transaction has a non-OP_RETURN output
(fallback vout v, per `first_non_op_return_index`), every asset balance
still in the unallocated bucket is moved to v and persisted under the
outpoint `(txid, v)` on top of whatever was already staged there; when
every output is OP_RETURN, the unallocated bucket is discarded — the
commit result is identical to committing with an empty bucket, so nothing
of the bucket reaches the store.  The transaction-scoped state is reset
either way. -/
theorem commit_outputs_fallback (u : Updater) (tx : Transaction) (v : Nat)
    (hro : u.is_read_only = false)
    (hndU : (u.unallocated_inputs.asset_list.list.map Prod.fst).Nodup)
    (hpos : ∀ kv ∈ u.unallocated_inputs.asset_list.list, 0 < kv.2)
    (hndA : (u.allocated_outputs.map Prod.fst).Nodup) :
    (first_non_op_return_index tx = some v →
      ∀ kv ∈ u.unallocated_inputs.asset_list.list,
        outpointBalance (commit_outputs u tx) ⟨tx.txid, v⟩ kv.1
          = satAdd (allocatedAmount u v kv.1) kv.2)
    ∧ (first_non_op_return_index tx = none →
        commit_outputs u tx
          = commit_outputs { u with unallocated_inputs := default } tx)
    ∧ (commit_outputs u tx).unallocated_inputs = default := by
  refine ⟨?_, ?_, ?_⟩
  · intro hv kv hm
    have hent : ∀ kv' ∈ u.unallocated_inputs.asset_list.list,
        alGet u.unallocated_inputs.asset_list.list kv'.1 = some kv'.2 ∧ 0 < kv'.2 :=
      fun kv' hm' => ⟨alGet_of_mem_nodup _ kv'.1 kv'.2 hndU hm', hpos kv' hm'⟩
    obtain ⟨m1, m2, m3, m4, m5, m6, m7⟩ :=
      moveFold_spec v u.unallocated_inputs.asset_list.list u hndU hent
    have hLne : u.unallocated_inputs.asset_list.list ≠ [] := by
      intro hc
      rw [hc] at hm
      cases hm
    have hro1 : (commitStage1 u tx v).is_read_only = false := by
      unfold commitStage1
      rw [specFold_ro, m4, hro]
    have hnd1 : ((commitStage1 u tx v).allocated_outputs.map Prod.fst).Nodup := by
      unfold commitStage1
      exact specFold_nodup _ _ _ (m5 hndA)
    have hmem : v ∈ (commitStage1 u tx v).allocated_outputs.map Prod.fst := by
      unfold commitStage1
      exact specFold_mem _ _ _ v (m7 hLne)
    have hA : allocatedAmount (commitStage1 u tx v) v kv.1
        = satAdd (allocatedAmount u v kv.1) kv.2 := by
      unfold commitStage1
      rw [specFold_allocatedAmount]
      exact m1 kv hm
    rw [commit_outputs_some_eq u tx v hv,
      persisted_balance_of (commitStage1 u tx v) tx.txid v kv.1 hro1 hnd1 hmem, hA]
  · intro hv
    simp only [commit_outputs, hv]
  · cases hfv : first_non_op_return_index tx <;> simp [commit_outputs, hfv]

/-- C9 witness: a bucket holding 20 of one asset, 30 already staged on
output 0, against a transaction whose output 0 is not OP_RETURN: the
persisted record at `(txid, 0)` holds 50, and the bucket is reset. -/
theorem commit_outputs_fallback_witness :
    (let A : BlockTx := ⟨1, 1⟩
     let u : Updater :=
       { db := default, is_read_only := false,
         unallocated_inputs := { (default : Allocation) with asset_list := ⟨[(A, 20)]⟩ },
         allocated_outputs :=
           [(0, { (default : Allocation) with asset_list := ⟨[(A, 30)]⟩ })] }
     let tx : Transaction := { txid := "c", input := [], output := [⟨[], 0, none⟩] }
     outpointBalance (commit_outputs u tx) ⟨"c", 0⟩ A = 50
       ∧ (commit_outputs u tx).unallocated_inputs = default) := by
  have h := commit_outputs_fallback
    { db := default, is_read_only := false,
      unallocated_inputs :=
        { (default : Allocation) with asset_list := ⟨[(⟨1, 1⟩, 20)]⟩ },
      allocated_outputs :=
        [(0, { (default : Allocation) with asset_list := ⟨[(⟨1, 1⟩, 30)]⟩ })] }
    { txid := "c", input := [], output := [⟨[], 0, none⟩] }
    0 rfl (by decide) (by decide) (by decide)
  refine ⟨?_, h.2.2⟩
  have := h.1 rfl (⟨1, 1⟩, 20) (by decide)
  simpa using this

/-! ## C1: flawed outcomes, staged writes and persistence

The executor steps never change the read-only flag; these lemmas carry
that fact through `indexExec` so that the final persistence of the
outcome can be established for every message. -/

theorem ro_set_asset_list (u : Updater) (op : Outpoint) (al : AssetList) :
    (set_asset_list u op al).is_read_only = u.is_read_only := by
  unfold set_asset_list
  split <;> rfl

theorem ro_set_asset_contract_data (u : Updater) (cid : BlockTx)
    (d : AssetContractData) :
    (set_asset_contract_data u cid d).is_read_only = u.is_read_only := by
  unfold set_asset_contract_data
  split <;> rfl

theorem ro_move_asset_allocation (u : Updater) (v : Nat) (cid : BlockTx) (amt : Nat) :
    (move_asset_allocation u v cid amt).is_read_only = u.is_read_only := by
  unfold move_asset_allocation allocate_new_asset
  split
  · rfl
  · dsimp only
    split <;> rfl

theorem ro_transfersGo (tx : Transaction) (ts : List TxTypeTransfer) :
    ∀ (u : Updater) (i : Nat), (transfersGo tx u i ts).2.is_read_only = u.is_read_only := by
  induction ts with
  | nil => intro u i; rfl
  | cons t rest ih =>
    intro u i
    unfold transfersGo
    split
    · exact ih u (i + 1)
    · rw [ih _ (i + 1), ro_move_asset_allocation]

theorem ro_transfers (u : Updater) (tx : Transaction) (ts : List TxTypeTransfer) :
    (transfers u tx ts).2.is_read_only = u.is_read_only := by
  unfold transfers
  exact ro_transfersGo tx ts u 0

theorem ro_update_asset_list_for_mint (u : Updater) (cid : BlockTx) (op : Outpoint)
    (amount : Nat) :
    (update_asset_list_for_mint u cid op amount).is_read_only = u.is_read_only := by
  unfold update_asset_list_for_mint
  rw [ro_set_asset_list]

theorem ro_mint_free_mint (u : Updater) (asset : AssetContractFreeMint)
    (tx : Transaction) (bt cid : BlockTx) (mo : MintOption) :
    (mint_free_mint u asset tx bt cid mo).2.is_read_only = u.is_read_only := by
  unfold mint_free_mint update_asset_contract_data_for_free_mint
  split
  · rfl
  · dsimp only
    split
    · rfl
    · split
      · rfl
      · dsimp only
        rw [ro_set_asset_contract_data, ro_update_asset_list_for_mint]

theorem ro_mint_purchase_burn_swap (sigOk : List Nat → OracleMessageSigned → Bool)
    (u : Updater) (pbs : AssetContractPurchaseBurnSwap) (tx : Transaction)
    (cid : BlockTx) (mo : MintOption) (r : Option Flaw × Updater)
    (h : mint_purchase_burn_swap sigOk u pbs tx cid mo = some r) :
    r.2.is_read_only = u.is_read_only := by
  simp only [mint_purchase_burn_swap] at h
  split at h
  · cases h
  · rw [← Option.some.inj h]
  · split at h
    · cases h
    · split_ifs at h
      · rw [← Option.some.inj h]
      · rw [← Option.some.inj h]
        exact ro_update_asset_list_for_mint _ _ _ _

theorem ro_mint (sigOk : List Nat → OracleMessageSigned → Bool) (u : Updater)
    (tx : Transaction) (bt cid : BlockTx) (mo : MintOption)
    (r : Option Flaw × Updater) (h : mint sigOk u tx bt cid mo = some r) :
    r.2.is_read_only = u.is_read_only := by
  simp only [mint] at h
  split at h
  · rw [← Option.some.inj h]
  · split at h
    · rw [← Option.some.inj h]
    · split at h
      · split at h
        · rw [← Option.some.inj h]
          exact ro_mint_free_mint _ _ _ _ _ _
        · split at h
          · exact ro_mint_purchase_burn_swap _ _ _ _ _ _ _ h
          · split at h <;> rw [← Option.some.inj h]
      · rw [← Option.some.inj h]

theorem ro_indexTransferStep (u : Updater) (tx : Transaction)
    (message : OpReturnMessage) (flaw0 : Option Flaw) :
    (indexTransferStep u tx message flaw0).2.is_read_only = u.is_read_only := by
  unfold indexTransferStep
  split
  · split
    · exact ro_transfers _ _ _
    · rfl
  · rfl

theorem ro_update_spec (u : Updater) (cid : BlockTx) (sc : SpecContract) :
    (update_spec u cid sc).2.is_read_only = u.is_read_only := by
  unfold update_spec
  split <;> rfl

theorem ro_indexCreationStep (u1 : Updater) (bh ti : Nat) (tx : Transaction)
    (message : OpReturnMessage) (flaw1 : Option Flaw) :
    (indexCreationStep u1 bh ti tx message flaw1).2.is_read_only
      = u1.is_read_only := by
  unfold indexCreationStep
  split
  · rfl
  · dsimp only
    repeat' split
    all_goals first
      | rfl
      | exact ro_update_spec _ _ _

theorem ro_indexCallStep (sigOk : List Nat → OracleMessageSigned → Bool)
    (u2 : Updater) (tx : Transaction) (bt : BlockTx) (message : OpReturnMessage)
    (flaw2 : Option Flaw) (r : Option Flaw × Updater)
    (h : indexCallStep sigOk u2 tx bt message flaw2 = some r) :
    r.2.is_read_only = u2.is_read_only := by
  simp only [indexCallStep] at h
  split at h
  · rw [← Option.some.inj h]
  · split at h
    · split_ifs at h
      · split at h
        · exact ro_mint _ _ _ _ _ _ _ h
        · rw [← Option.some.inj h]
      · rw [← Option.some.inj h]
    · rw [← Option.some.inj h]

theorem ro_indexExec (sigOk : List Nat → OracleMessageSigned → Bool) (u : Updater)
    (bh ti : Nat) (tx : Transaction) (mr : Except Flaw OpReturnMessage)
    (o : MessageDataOutcome) (uf : Updater)
    (h : indexExec sigOk u bh ti tx mr = some (o, uf)) :
    uf.is_read_only = u.is_read_only := by
  simp only [indexExec] at h
  split at h
  · rw [← (Prod.mk.injEq _ _ _ _).mp (Option.some.inj h) |>.2]
  · rename_i message
    split at h
    · cases h
    · rename_i r heq
      have h2 := (Prod.mk.injEq _ _ _ _).mp (Option.some.inj h) |>.2
      rw [← h2]
      rw [ro_indexCallStep sigOk _ tx _ message _ r heq,
        ro_indexCreationStep, ro_indexTransferStep]

theorem mergeFold_db_ro (L : List (BlockTx × Nat)) :
    ∀ (u : Updater), (L.foldl mergeAssetInto u).db = u.db
      ∧ (L.foldl mergeAssetInto u).is_read_only = u.is_read_only := by
  induction L with
  | nil => intro u; exact ⟨rfl, rfl⟩
  | cons kv R ih =>
    intro u
    simp only [List.foldl_cons]
    exact ⟨(ih _).1, (ih _).2⟩

theorem ro_delete_asset (u : Updater) (op : Outpoint) :
    (delete_asset u op).is_read_only = u.is_read_only := by
  unfold delete_asset
  split <;> rfl

theorem ro_delete_spec_contract_owned (u : Updater) (op : Outpoint) :
    (delete_spec_contract_owned u op).is_read_only = u.is_read_only := by
  unfold delete_spec_contract_owned
  split <;> rfl

theorem asset_list_delete_spec (u : Updater) (op : Outpoint) :
    (delete_spec_contract_owned u op).db.asset_list = u.db.asset_list := by
  unfold delete_spec_contract_owned
  split <;> rfl

theorem asset_list_delete_asset (u : Updater) (op : Outpoint)
    (hro : u.is_read_only = false) :
    (delete_asset u op).db.asset_list = alErase u.db.asset_list op := by
  unfold delete_asset
  rw [hro]
  simp

theorem ro_unallocateOne (u : Updater) (t : TxIn) :
    (unallocateOne u t).is_read_only = u.is_read_only := by
  unfold unallocateOne
  dsimp only
  rw [ro_delete_spec_contract_owned]
  show (delete_asset (List.foldl mergeAssetInto u
    (get_asset_list u t.previous_output).list) t.previous_output).is_read_only
    = u.is_read_only
  rw [ro_delete_asset]
  exact (mergeFold_db_ro _ _).2

theorem unallocateOne_asset_list (u : Updater) (t : TxIn)
    (hro : u.is_read_only = false) :
    (unallocateOne u t).db.asset_list
      = alErase u.db.asset_list t.previous_output := by
  have hro1 : (List.foldl mergeAssetInto u
      (get_asset_list u t.previous_output).list).is_read_only = false := by
    rw [(mergeFold_db_ro _ _).2, hro]
  unfold unallocateOne
  dsimp only
  rw [asset_list_delete_spec]
  show (delete_asset (List.foldl mergeAssetInto u
    (get_asset_list u t.previous_output).list) t.previous_output).db.asset_list
    = alErase u.db.asset_list t.previous_output
  rw [asset_list_delete_asset _ _ hro1, (mergeFold_db_ro _ _).1]

theorem unallocate_consumes_inputs (L : List TxIn) :
    ∀ (u : Updater), u.is_read_only = false →
    ((L.foldl unallocateOne u).is_read_only = false
      ∧ (∀ op, alGet u.db.asset_list op = none →
          alGet (L.foldl unallocateOne u).db.asset_list op = none)
      ∧ ∀ t ∈ L, alGet (L.foldl unallocateOne u).db.asset_list t.previous_output
          = none) := by
  induction L with
  | nil =>
    intro u hro
    exact ⟨hro, fun _ h => h, by simp⟩
  | cons t0 R ih =>
    intro u hro
    have hro1 : (unallocateOne u t0).is_read_only = false := by
      rw [ro_unallocateOne, hro]
    obtain ⟨ihro, ihnone, ihdel⟩ := ih (unallocateOne u t0) hro1
    have hdel0 : alGet (unallocateOne u t0).db.asset_list t0.previous_output = none := by
      rw [unallocateOne_asset_list u t0 hro, alGet_alErase]
      simp
    refine ⟨by simpa using ihro, ?_, ?_⟩
    · intro op hop
      simp only [List.foldl_cons]
      apply ihnone
      rw [unallocateOne_asset_list u t0 hro, alGet_alErase]
      simp [hop]
    · intro t hm
      rcases List.mem_cons.mp hm with he | hm'
      · rw [he]
        simp only [List.foldl_cons]
        exact ihnone _ hdel0
      · simp only [List.foldl_cons]
        exact ihdel t hm'

/-- C1 (amended): the outcome of every indexed transaction — flawed or
not — is persisted under its `(block, tx_index)` key together with the
txid → BlockTx mapping, and unallocating the transaction's inputs deletes
every consumed outpoint's asset record (the inputs stay consumed).  The
original claim's rollback guarantee is dropped: a flaw does not discard
staged writes (see the counterexample). -/
theorem index_persists_outcome (sigOk : List Nat → OracleMessageSigned → Bool)
    (u : Updater) (bh ti : Nat) (tx : Transaction)
    (mr : Except Flaw OpReturnMessage) (outcome : MessageDataOutcome) (u' : Updater)
    (hro : u.is_read_only = false)
    (h : index sigOk u bh ti tx mr = some (outcome, u')) :
    alGet u'.db.messages ⟨bh, ti⟩ = some outcome
    ∧ alGet u'.db.tx_to_block_tx tx.txid = some ⟨bh, ti⟩
    ∧ (∀ t ∈ tx.input,
        alGet (unallocate_inputs u tx).db.asset_list t.previous_output = none) := by
  have hcons := (unallocate_consumes_inputs tx.input u hro).2.2
  simp only [index] at h
  split at h
  · cases h
  · rename_i r heq
    have hufro : r.2.is_read_only = false := by
      rw [ro_indexExec sigOk u bh ti tx mr r.1 r.2 heq, hro]
    rw [hufro] at h
    simp only [Bool.false_eq_true, if_false] at h
    have h2 := Option.some.inj h
    have houtcome : r.1 = outcome := (Prod.mk.injEq _ _ _ _).mp h2 |>.1
    have hu' := (Prod.mk.injEq _ _ _ _).mp h2 |>.2
    rw [← hu', ← houtcome]
    exact ⟨alGet_alSet_same _ _ _, alGet_alSet_same _ _ _, hcons⟩

/-- C1 witness: a concrete flawed transfer message run through `index`:
its outcome (with the `OutputOverflow` flaw) is persisted under the
`(block, tx_index)` key. -/
theorem index_persists_outcome_witness :
    ((index (fun _ _ => false)
        { db := default, is_read_only := false,
          unallocated_inputs :=
            { (default : Allocation) with asset_list := ⟨[(⟨1, 1⟩, 50)]⟩ },
          allocated_outputs := [] }
        7 0 { txid := "x", input := [], output := [⟨[], 0, none⟩, ⟨[], 0, none⟩] }
        (.ok ⟨some ⟨[⟨⟨1, 1⟩, 1, 30⟩, ⟨⟨1, 1⟩, 99, 10⟩]⟩, none, none⟩)).map
      (fun p => alGet p.2.db.messages ⟨7, 0⟩ = some p.1)).getD False := by
  have h := index_persists_outcome (fun _ _ => false)
    { db := default, is_read_only := false,
      unallocated_inputs :=
        { (default : Allocation) with asset_list := ⟨[(⟨1, 1⟩, 50)]⟩ },
      allocated_outputs := [] }
    7 0 { txid := "x", input := [], output := [⟨[], 0, none⟩, ⟨[], 0, none⟩] }
    (.ok ⟨some ⟨[⟨⟨1, 1⟩, 1, 30⟩, ⟨⟨1, 1⟩, 99, 10⟩]⟩, none, none⟩)
    _ _ rfl rfl
  simpa using h.1

/-- C1 counterexample: a transfer message whose second entry overflows —
the outcome records `OutputOverflow([1])`, yet the first entry's staged
move survives and is committed: outpoint `(txid, 1)` is created holding
30 (and the 20 remainder falls back to output 0), while before the
message no record existed at `(txid, 1)`.  Flawed messages do not leave
per-outpoint records as they were. -/
theorem flawed_transfer_not_rolled_back :
    (let A : BlockTx := ⟨1, 1⟩
     let u : Updater :=
       { db := default, is_read_only := false,
         unallocated_inputs := { (default : Allocation) with asset_list := ⟨[(A, 50)]⟩ },
         allocated_outputs := [] }
     let tx : Transaction :=
       { txid := "x", input := [], output := [⟨[], 0, none⟩, ⟨[], 0, none⟩] }
     ((index (fun _ _ => false) u 7 0 tx
        (.ok ⟨some ⟨[⟨A, 1, 30⟩, ⟨A, 99, 10⟩]⟩, none, none⟩)).map
       (fun p =>
         (p.1.flaw, outpointBalance (commit_outputs p.2 tx) ⟨"x", 1⟩ A,
          outpointBalance (commit_outputs p.2 tx) ⟨"x", 0⟩ A)))
       = some (some (.OutputOverflow [1]), 30, 20)
     ∧ alGet u.db.asset_list ⟨"x", 1⟩ = none) := by
  refine ⟨by decide, rfl⟩

end Glittr
